import Mathlib

/-!
Shallow embedding of the DWML hourly-forecast parser in
`src/weather_mcp_server.py` (class methods `parse_hourly_forecast`,
`_parse_temperature_data`, `_parse_humidity_data`, `_parse_wind_data`,
`_parse_weather_conditions`, `_parse_precipitation_data`,
`_parse_cloud_cover`, and the truncation step of
`get_hourly_weather_forecast`).

Modelling conventions: XML element trees are the inductive `Elem`
(namespace-free tag lookup, matching the unprefixed paths the source
passes to ElementTree); Python `float` values are exact rationals plus
infinities and NaN (IEEE rounding is not modelled, and the numeral
grammar is the ASCII subset without underscore separators);
`datetime.fromisoformat` is modelled on the isoformat-shaped subset of
inputs (4-digit year, `-`, 2-digit month, `-`, 2-digit day, optional
single separator character, `HH[:MM[:SS[.fff|.ffffff]]]`, optional
`±HH:MM` offset, with calendar and range validation); Python
exceptions are the `Except PyExn` monad, and the `except` clauses of
the source become explicit handlers.
-/

/-- Python exceptions that the parser code can raise or catch:
`ET.ParseError` from `ET.fromstring`, `ValueError` from `float()` /
`datetime.fromisoformat`, and `TypeError` from
`datetime.fromisoformat(None)`. -/
inductive PyExn where
  | parseError : PyExn
  | valueError : PyExn
  | typeError : PyExn
deriving DecidableEq, Repr

deriving instance DecidableEq for Except

/-- Exact decimal `mant * 10 ^ exp`, the value a Python float literal denotes
(IEEE rounding is not modelled; each parsed cell keeps its exact decimal). -/
structure Decimal where
  mant : Int
  exp : Int
deriving DecidableEq, Repr

/-- Value of a successful Python `float()` call: an exact decimal for
finite results, signed infinity, or NaN (`true` means negative). -/
inductive PyFloat where
  | finite : Decimal → PyFloat
  | inf : Bool → PyFloat
  | nan : PyFloat
deriving DecidableEq, Repr

/-- Whitespace characters stripped by Python `float()` around its argument. -/
def isSpaceChar (c : Char) : Bool :=
  c == ' ' || c == '\t' || c == '\n' || c == '\r' || c == '\x0b' || c == '\x0c'

/-- Strip leading and trailing whitespace from a character list. -/
def trimChars (cs : List Char) : List Char :=
  ((cs.dropWhile isSpaceChar).reverse.dropWhile isSpaceChar).reverse

/-- Read an optional leading sign; returns `true` for a consumed `-`. -/
def readSign (cs : List Char) : Bool × List Char :=
  match cs with
  | c :: rest =>
    if c = '-' then (true, rest)
    else if c = '+' then (false, rest)
    else (false, cs)
  | [] => (false, cs)

/-- Numeric value of a list of ASCII digit characters, most significant first. -/
def natOfDigits (cs : List Char) : Nat :=
  cs.foldl (fun n c => 10 * n + (c.toNat - 48)) 0

/-- Assemble the finite float `(-1)^neg * ip.fp * 10^(±ed)` as an exact decimal. -/
def mkFin (neg : Bool) (ip fp : List Char) (eneg : Bool) (ed : Nat) : PyFloat :=
  let m : Int := Int.ofNat (natOfDigits (ip ++ fp))
  let m : Int := if neg then -m else m
  let e : Int := (if eneg then -(ed : Int) else (ed : Int)) - (fp.length : Int)
  .finite ⟨m, e⟩

/-- Parse the exponent suffix of a Python float literal (after `e`/`E`). -/
def parseExpPart (neg : Bool) (ip fp : List Char) (cs : List Char) : Option PyFloat :=
  let (eneg, cs1) := readSign cs
  let ed := cs1.takeWhile Char.isDigit
  let r := cs1.dropWhile Char.isDigit
  if ed.isEmpty || !r.isEmpty then none else some (mkFin neg ip fp eneg (natOfDigits ed))

/-- Parse the decimal (non-inf/nan) body of a Python float literal. -/
def parseDec (neg : Bool) (cs : List Char) : Option PyFloat :=
  let ip := cs.takeWhile Char.isDigit
  let r1 := cs.dropWhile Char.isDigit
  match r1 with
  | [] => if ip.isEmpty then none else some (mkFin neg ip [] false 0)
  | '.' :: r2 =>
    let fp := r2.takeWhile Char.isDigit
    let r3 := r2.dropWhile Char.isDigit
    if ip.isEmpty && fp.isEmpty then none
    else
      match r3 with
      | [] => some (mkFin neg ip fp false 0)
      | c :: r4 => if c = 'e' ∨ c = 'E' then parseExpPart neg ip fp r4 else none
  | c :: r4 => if (c = 'e' ∨ c = 'E') ∧ !ip.isEmpty then parseExpPart neg ip [] r4 else none

/-- Lowercase one ASCII letter (used only for the `inf`/`nan` keywords). -/
def lowerAscii (c : Char) : Char :=
  if 'A' ≤ c ∧ c ≤ 'Z' then Char.ofNat (c.toNat + 32) else c

/-- Body of `float()` after whitespace stripping and sign handling: a decimal
literal, else the case-insensitive keywords `inf`, `infinity`, `nan`. -/
def pyFloatTail (neg : Bool) (cs1 : List Char) : Option PyFloat :=
  match parseDec neg cs1 with
  | some f => some f
  | none =>
    if cs1.map lowerAscii = "inf".data ∨ cs1.map lowerAscii = "infinity".data then
      some (.inf neg)
    else if cs1.map lowerAscii = "nan".data then some (.nan)
    else none

/-- Python `float(s)`: `some` of the parsed value, or `none` where CPython
raises `ValueError`. -/
def pyFloat? (s : String) : Option PyFloat :=
  pyFloatTail (readSign (trimChars s.data)).1 (readSign (trimChars s.data)).2

/-- Python `str.isdigit()` on the ASCII subset: nonempty and all digits. -/
def pyIsdigit (s : String) : Bool :=
  !s.data.isEmpty && s.data.all Char.isDigit


/-- Result of `datetime.fromisoformat`: a calendar datetime with an optional
fixed UTC offset in minutes (`tzmin`). -/
structure PyDatetime where
  year : Nat
  month : Nat
  day : Nat
  hour : Nat
  minute : Nat
  second : Nat
  micro : Nat
  tzmin : Option Int
deriving DecidableEq, Repr

/-- Gregorian leap-year rule, as in Python's `calendar.isleap`. -/
def isLeap (y : Nat) : Bool :=
  y % 4 = 0 && (y % 100 ≠ 0 || y % 400 = 0)

/-- Number of days in a month, matching `datetime`'s validation. -/
def daysInMonth (y m : Nat) : Nat :=
  if m = 2 then (if isLeap y then 29 else 28)
  else if m = 4 ∨ m = 6 ∨ m = 9 ∨ m = 11 then 30
  else 31

/-- Read exactly `n` ASCII digits from the front of the list. -/
def readNDigits : Nat → List Char → Option (List Char × List Char)
  | 0, cs => some ([], cs)
  | _ + 1, [] => none
  | n + 1, c :: cs =>
    if c.isDigit then (readNDigits n cs).map (fun p => (c :: p.1, p.2)) else none

/-- Consume one expected character from the front of the list. -/
def expectChar (c : Char) : List Char → Option (List Char)
  | [] => none
  | x :: xs => if x = c then some xs else none

/-- Parse the trailing UTC-offset part `±HH:MM` (or nothing): `some none`
means no offset; the total offset must be under 24 hours, as `timezone`
requires. -/
def parseTZPart (cs : List Char) : Option (Option Int) :=
  match cs with
  | [] => some none
  | c :: r =>
    if c = '+' ∨ c = '-' then
      match readNDigits 2 r with
      | none => none
      | some (hds, r1) =>
        match expectChar ':' r1 with
        | none => none
        | some r2 =>
          match readNDigits 2 r2 with
          | none => none
          | some (mds, r3) =>
            if !r3.isEmpty then none
            else
              let tot : Int := (natOfDigits hds : Int) * 60 + (natOfDigits mds : Int)
              if tot ≥ 24 * 60 then none
              else some (some (if c = '-' then -tot else tot))
    else none

/-- Parse `HH[:MM[:SS[.fff|.ffffff]]]`, returning the components and the
unconsumed remainder (a candidate offset string). -/
def parseTimeComps (cs : List Char) : Option (Nat × Nat × Nat × Nat × List Char) := do
  let (hds, r1) ← readNDigits 2 cs
  let hh := natOfDigits hds
  match r1 with
  | ':' :: r2 => do
    let (mds, r3) ← readNDigits 2 r2
    let mi := natOfDigits mds
    match r3 with
    | ':' :: r4 => do
      let (sds, r5) ← readNDigits 2 r4
      let ss := natOfDigits sds
      match r5 with
      | '.' :: r6 =>
        match readNDigits 6 r6 with
        | some (fds, r7) => pure (hh, mi, ss, natOfDigits fds, r7)
        | none => do
          let (fds, r7) ← readNDigits 3 r6
          pure (hh, mi, ss, natOfDigits fds * 1000, r7)
      | _ => pure (hh, mi, ss, 0, r5)
    | _ => pure (hh, mi, 0, 0, r3)
  | _ => pure (hh, 0, 0, 0, r1)

/-- Range-validate and build the datetime, as the `datetime` constructor does. -/
def finishDT (y mo d hh mi ss us : Nat) (tz : Option Int) : Option PyDatetime :=
  if hh > 23 ∨ mi > 59 ∨ ss > 59 then none
  else some ⟨y, mo, d, hh, mi, ss, us, tz⟩

/-- Parse the time-of-day (and optional offset) that follows the separator. -/
def parseTimePart (y mo d : Nat) (cs : List Char) : Option PyDatetime := do
  let (hh, mi, ss, us, r) ← parseTimeComps cs
  let tz? ← parseTZPart r
  finishDT y mo d hh mi ss us tz?

/-- Python `datetime.fromisoformat(s)` on the isoformat-shaped subset:
`YYYY-MM-DD`, then optionally one separator character and
`HH[:MM[:SS[.fff|.ffffff]]][±HH:MM]`; `some` of the parsed datetime, or
`none` where CPython raises `ValueError`. -/
def fromisoformat? (s : String) : Option PyDatetime := do
  let cs := s.data
  let (yds, r1) ← readNDigits 4 cs
  let r2 ← expectChar '-' r1
  let (mds, r3) ← readNDigits 2 r2
  let r4 ← expectChar '-' r3
  let (dds, r5) ← readNDigits 2 r4
  let y := natOfDigits yds
  let mo := natOfDigits mds
  let d := natOfDigits dds
  if y = 0 ∨ mo = 0 ∨ mo > 12 then none
  else if d = 0 ∨ d > daysInMonth y mo then none
  else
    match r5 with
    | [] => some ⟨y, mo, d, 0, 0, 0, 0, none⟩
    | _ :: r6 => parseTimePart y mo d r6

/-- Left-pad the decimal rendering of `n` with zeros to width `w`. -/
def pad (w n : Nat) : String :=
  let s := toString n
  String.mk (List.replicate (w - s.length) '0') ++ s

/-- Render a UTC offset as `±HH:MM` (empty for a naive datetime), as
`datetime.isoformat` does. -/
def tzRender : Option Int → String
  | none => ""
  | some off =>
    let sign := if off < 0 then "-" else "+"
    let a := off.natAbs
    sign ++ pad 2 (a / 60) ++ ":" ++ pad 2 (a % 60)

/-- Python `datetime.isoformat()`. -/
def pyIsoformat (dt : PyDatetime) : String :=
  pad 4 dt.year ++ "-" ++ pad 2 dt.month ++ "-" ++ pad 2 dt.day ++ "T" ++
  pad 2 dt.hour ++ ":" ++ pad 2 dt.minute ++ ":" ++ pad 2 dt.second ++
  (if dt.micro = 0 then "" else "." ++ pad 6 dt.micro) ++ tzRender dt.tzmin

/-- Python `dt.strftime('%Y-%m-%d %I:%M:%S %p')`: 12-hour clock with AM/PM. -/
def pyStrftime12 (dt : PyDatetime) : String :=
  let h12 := if dt.hour % 12 = 0 then 12 else dt.hour % 12
  pad 4 dt.year ++ "-" ++ pad 2 dt.month ++ "-" ++ pad 2 dt.day ++ " " ++
  pad 2 h12 ++ ":" ++ pad 2 dt.minute ++ ":" ++ pad 2 dt.second ++ " " ++
  (if dt.hour < 12 then "AM" else "PM")


/-- An ElementTree element: tag, attributes, text, child elements. -/
inductive Elem where
  | mk : String → List (String × String) → Option String → List Elem → Elem

mutual

/-- Decidable equality for elements (deriving does not handle the nesting). -/
def elemDeq : (a b : Elem) → Decidable (a = b)
  | .mk t1 a1 x1 c1, .mk t2 a2 x2 c2 =>
    if h1 : t1 = t2 then
      if h2 : a1 = a2 then
        if h3 : x1 = x2 then
          match elemListDeq c1 c2 with
          | isTrue h4 => isTrue (by rw [h1, h2, h3, h4])
          | isFalse h4 => isFalse (by intro he; injection he; contradiction)
        else isFalse (by intro he; injection he; contradiction)
      else isFalse (by intro he; injection he; contradiction)
    else isFalse (by intro he; injection he; contradiction)

/-- Decidable equality for lists of elements. -/
def elemListDeq : (a b : List Elem) → Decidable (a = b)
  | [], [] => isTrue rfl
  | [], _ :: _ => isFalse (fun h => List.noConfusion h)
  | _ :: _, [] => isFalse (fun h => List.noConfusion h)
  | a :: as, b :: bs =>
    match elemDeq a b, elemListDeq as bs with
    | isTrue h1, isTrue h2 => isTrue (by rw [h1, h2])
    | isFalse h1, _ => isFalse (by intro h; injection h; contradiction)
    | isTrue _, isFalse h2 => isFalse (by intro h; injection h; contradiction)

end

instance : DecidableEq Elem := elemDeq

/-- Tag of an element. -/
def Elem.tag : Elem → String
  | .mk t _ _ _ => t

/-- Attribute list of an element. -/
def Elem.attrs : Elem → List (String × String)
  | .mk _ a _ _ => a

/-- Text of an element (`None` for an empty element). -/
def Elem.text : Elem → Option String
  | .mk _ _ x _ => x

/-- Children of an element. -/
def Elem.children : Elem → List Elem
  | .mk _ _ _ cs => cs

/-- Python `elem.get(name)`: first attribute with that name, if any. -/
def attr? (e : Elem) (name : String) : Option String :=
  (e.attrs.find? (fun p => p.1 == name)).map (fun p => p.2)

mutual

/-- All proper descendants of an element in document (preorder) order,
the order ElementTree's `.//` paths enumerate. -/
def descendants : Elem → List Elem
  | .mk _ _ _ cs => descendantsList cs

/-- Descendants-with-self of each element of a list, concatenated in order. -/
def descendantsList : List Elem → List Elem
  | [] => []
  | c :: cs => c :: (descendants c ++ descendantsList cs)

end

/-- `elem.findall('.//tag')`: all descendants with the tag, document order. -/
def findallDesc (e : Elem) (tag : String) : List Elem :=
  (descendants e).filter (fun c => c.tag == tag)

/-- `elem.find('.//tag')`: first descendant with the tag. -/
def findDesc (e : Elem) (tag : String) : Option Elem :=
  (descendants e).find? (fun c => c.tag == tag)

/-- `elem.findall('tag')`: direct children with the tag, in order. -/
def findallChild (e : Elem) (tag : String) : List Elem :=
  e.children.filter (fun c => c.tag == tag)

/-- `elem.find('tag')`: first direct child with the tag. -/
def findChild (e : Elem) (tag : String) : Option Elem :=
  e.children.find? (fun c => c.tag == tag)

/-- `elem.find('.//tag[@name="val"]')`: first descendant with the tag whose
attribute `name` equals `val`. -/
def findDescAttr (e : Elem) (tag name val : String) : Option Elem :=
  (descendants e).find? (fun c => c.tag == tag && attr? c name == some val)

/-- A JSON-like Python value stored in a forecast record: a string, a float,
or a nested dict. -/
inductive JVal where
  | str : String → JVal
  | num : PyFloat → JVal
  | obj : List (String × JVal) → JVal

mutual

/-- Decidable equality for record values (deriving does not handle the nesting). -/
def jvalDeq : (a b : JVal) → Decidable (a = b)
  | .str s1, .str s2 =>
    if h : s1 = s2 then isTrue (by rw [h])
    else isFalse (by intro he; injection he; contradiction)
  | .num f1, .num f2 =>
    if h : f1 = f2 then isTrue (by rw [h])
    else isFalse (by intro he; injection he; contradiction)
  | .obj o1, .obj o2 =>
    match jvalObjDeq o1 o2 with
    | isTrue h => isTrue (by rw [h])
    | isFalse h => isFalse (by intro he; injection he; contradiction)
  | .str _, .num _ => isFalse (fun h => JVal.noConfusion h)
  | .str _, .obj _ => isFalse (fun h => JVal.noConfusion h)
  | .num _, .str _ => isFalse (fun h => JVal.noConfusion h)
  | .num _, .obj _ => isFalse (fun h => JVal.noConfusion h)
  | .obj _, .str _ => isFalse (fun h => JVal.noConfusion h)
  | .obj _, .num _ => isFalse (fun h => JVal.noConfusion h)

/-- Decidable equality for key-value lists of record values. -/
def jvalObjDeq : (a b : List (String × JVal)) → Decidable (a = b)
  | [], [] => isTrue rfl
  | [], _ :: _ => isFalse (fun h => List.noConfusion h)
  | _ :: _, [] => isFalse (fun h => List.noConfusion h)
  | (k1, v1) :: as, (k2, v2) :: bs =>
    if hk : k1 = k2 then
      match jvalDeq v1 v2, jvalObjDeq as bs with
      | isTrue h1, isTrue h2 => isTrue (by rw [hk, h1, h2])
      | isFalse h1, _ =>
        isFalse (by intro h; injection h with h3 h4; injection h3; contradiction)
      | isTrue _, isFalse h2 => isFalse (by intro h; injection h; contradiction)
    else isFalse (by intro h; injection h with h3 h4; injection h3; contradiction)

end

instance : DecidableEq JVal := jvalDeq

/-- One forecast record: a Python dict in insertion order. -/
abbrev ForecastRec := List (String × JVal)

/-- Python dict lookup `r[k]` (as an option). -/
def getKey : List (String × JVal) → String → Option JVal
  | [], _ => none
  | (k1, v1) :: rest, k => if k1 = k then some v1 else getKey rest k

/-- Python dict assignment `r[k] = v`: overwrite in place, or append. -/
def setKey : List (String × JVal) → String → JVal → List (String × JVal)
  | [], k, v => [(k, v)]
  | (k1, v1) :: rest, k, v =>
    if k1 = k then (k, v) :: rest else (k1, v1) :: setKey rest k v

/-- The `{'value': ..., 'units': ...}` pair stored for a numeric parameter. -/
def vuObj (f : PyFloat) (units : String) : JVal :=
  .obj [("value", .num f), ("units", .str units)]

/-- The existing nested wind dict of a record, or empty if absent. -/
def windObjOf (r : ForecastRec) : List (String × JVal) :=
  match getKey r "wind" with
  | some (.obj kvs) => kvs
  | _ => []

/-- Write one field of the nested wind dict, creating it when absent, as
`if 'wind' not in forecasts[i]: forecasts[i]['wind'] = {}` followed by the
field assignment does. -/
def setWind (r : ForecastRec) (field : String) (v : JVal) : ForecastRec :=
  setKey r "wind" (.obj (setKey (windObjOf r) field v))

/-- Apply `f` to the element at index `i`, when in range. -/
def modifyIdx (f : ForecastRec → ForecastRec) : Nat → List ForecastRec → List ForecastRec
  | _, [] => []
  | 0, r :: rs => f r :: rs
  | n + 1, r :: rs => r :: modifyIdx f n rs

/-- One iteration shape shared by the value-merging loops of the source
(`for i, value in enumerate(values): if i < len(forecasts) and value.text:`):
`cellFn` turns a non-empty cell text into a record update, or raises. -/
def mergeCells (cellFn : String → Except PyExn (ForecastRec → ForecastRec)) :
    Nat → List Elem → List ForecastRec → Except PyExn (List ForecastRec)
  | _, [], fc => .ok fc
  | i, v :: vs, fc =>
    if i < fc.length then
      match v.text with
      | none => mergeCells cellFn (i + 1) vs fc
      | some s =>
        if s = "" then mergeCells cellFn (i + 1) vs fc
        else
          match cellFn s with
          | .error e => .error e
          | .ok g => mergeCells cellFn (i + 1) vs (modifyIdx g i fc)
    else mergeCells cellFn (i + 1) vs fc

/-- Cell handler for a plain numeric parameter: `float(value.text)` then
store `{'value': ..., 'units': units}` under `key`. -/
def numCellFn (key units : String) (s : String) : Except PyExn (ForecastRec → ForecastRec) :=
  match pyFloat? s with
  | none => .error .valueError
  | some f => .ok (fun r => setKey r key (vuObj f units))

/-- Merge one numeric series into the records, positionally. -/
def mergeNum (key units : String) (values : List Elem) (fc : List ForecastRec) :
    Except PyExn (List ForecastRec) :=
  mergeCells (numCellFn key units) 0 values fc

/-- Loop of `_parse_temperature_data`: every `temperature` element is a
candidate; those whose `time-layout` attribute equals the hourly layout key
merge their values under `temperature_<type.lower()>` with unit defaulting
to `Fahrenheit`. -/
def parseTemperatureGo (layoutKey : String) :
    List Elem → List ForecastRec → Except PyExn (List ForecastRec)
  | [], fc => .ok fc
  | t :: ts, fc =>
    if attr? t "time-layout" = some layoutKey then
      match mergeNum ("temperature_" ++ ((attr? t "type").getD "unknown").toLower)
          ((attr? t "units").getD "Fahrenheit") (findallChild t "value") fc with
      | .error e => .error e
      | .ok fc1 => parseTemperatureGo layoutKey ts fc1
    else parseTemperatureGo layoutKey ts fc

/-- `_parse_temperature_data`. -/
def parseTemperatureData (params : Elem) (layoutKey : String) (fc : List ForecastRec) :
    Except PyExn (List ForecastRec) :=
  parseTemperatureGo layoutKey (findallDesc params "temperature") fc

/-- `_parse_humidity_data`: the first `humidity` element whose `time-layout`
matches, merged under `humidity` with unit defaulting to `percent`. -/
def parseHumidityData (params : Elem) (layoutKey : String) (fc : List ForecastRec) :
    Except PyExn (List ForecastRec) :=
  match findDescAttr params "humidity" "time-layout" layoutKey with
  | none => .ok fc
  | some h => mergeNum "humidity" ((attr? h "units").getD "percent") (findallChild h "value") fc

/-- Cell handler for wind speed: nested under the shared `wind` dict. -/
def windSpeedCellFn (units : String) (s : String) : Except PyExn (ForecastRec → ForecastRec) :=
  match pyFloat? s with
  | none => .error .valueError
  | some f => .ok (fun r => setWind r "speed" (vuObj f units))

/-- Cell handler for wind direction: `float(value.text) if
value.text.isdigit() else value.text`, nested under the shared `wind` dict. -/
def windDirCellFn (units : String) (s : String) : Except PyExn (ForecastRec → ForecastRec) :=
  if pyIsdigit s then
    match pyFloat? s with
    | none => .error .valueError
    | some f => .ok (fun r => setWind r "direction" (.obj [("value", .num f), ("units", .str units)]))
  else .ok (fun r => setWind r "direction" (.obj [("value", .str s), ("units", .str units)]))

/-- Wind-speed half of `_parse_wind_data`. -/
def parseWindSpeedStage (params : Elem) (layoutKey : String) (fc : List ForecastRec) :
    Except PyExn (List ForecastRec) :=
  match findDescAttr params "wind-speed" "time-layout" layoutKey with
  | none => .ok fc
  | some ws => mergeCells (windSpeedCellFn ((attr? ws "units").getD "knots")) 0
      (findallChild ws "value") fc

/-- Wind-direction half of `_parse_wind_data`. -/
def parseWindDirStage (params : Elem) (layoutKey : String) (fc : List ForecastRec) :
    Except PyExn (List ForecastRec) :=
  match findDescAttr params "direction" "time-layout" layoutKey with
  | none => .ok fc
  | some wd => mergeCells (windDirCellFn ((attr? wd "units").getD "degrees")) 0
      (findallChild wd "value") fc

/-- Python exception sequencing: a raised exception propagates past the
remaining statements. -/
def exBind (x : Except PyExn (List ForecastRec))
    (f : List ForecastRec → Except PyExn (List ForecastRec)) :
    Except PyExn (List ForecastRec) :=
  match x with
  | .error e => .error e
  | .ok a => f a

/-- `_parse_wind_data`: wind speed then wind direction, each the first
matching element, merged into the shared nested `wind` value. -/
def parseWindData (params : Elem) (layoutKey : String) (fc : List ForecastRec) :
    Except PyExn (List ForecastRec) :=
  exBind (parseWindSpeedStage params layoutKey fc) (parseWindDirStage params layoutKey)

/-- Loop of `_parse_weather_conditions`: the i-th `weather-conditions` child
sets `weather_conditions` on record i from the `weather-summary` attribute,
defaulting to `No description`. -/
def parseWeatherGo : Nat → List Elem → List ForecastRec → List ForecastRec
  | _, [], fc => fc
  | i, c :: cs, fc =>
    if i < fc.length then
      parseWeatherGo (i + 1) cs
        (modifyIdx
          (fun r => setKey r "weather_conditions"
            (.str ((attr? c "weather-summary").getD "No description"))) i fc)
    else parseWeatherGo (i + 1) cs fc

/-- `_parse_weather_conditions`. -/
def parseWeatherConditions (params : Elem) (layoutKey : String) (fc : List ForecastRec) :
    List ForecastRec :=
  match findDescAttr params "weather" "time-layout" layoutKey with
  | none => fc
  | some w => parseWeatherGo 0 (findallChild w "weather-conditions") fc

/-- `_parse_precipitation_data`. -/
def parsePrecipitationData (params : Elem) (layoutKey : String) (fc : List ForecastRec) :
    Except PyExn (List ForecastRec) :=
  match findDescAttr params "probability-of-precipitation" "time-layout" layoutKey with
  | none => .ok fc
  | some p =>
    mergeNum "precipitation_probability" ((attr? p "units").getD "percent")
      (findallChild p "value") fc

/-- `_parse_cloud_cover`. -/
def parseCloudCover (params : Elem) (layoutKey : String) (fc : List ForecastRec) :
    Except PyExn (List ForecastRec) :=
  match findDescAttr params "cloud-amount" "time-layout" layoutKey with
  | none => .ok fc
  | some c =>
    mergeNum "cloud_cover" ((attr? c "units").getD "percent") (findallChild c "value") fc

/-- Layout-selection loop of `parse_hourly_forecast`: the first `time-layout`
that has a `layout-key` child and more than 24 `start-valid-time` children;
returns its timestamp texts and the key element's text. -/
def findHourly : List Elem → Option (List (Option String) × Option String)
  | [] => none
  | l :: ls =>
    match findChild l "layout-key" with
    | none => findHourly ls
    | some lk =>
      if 24 < (findallChild l "start-valid-time").length then
        some ((findallChild l "start-valid-time").map Elem.text, lk.text)
      else findHourly ls

/-- Hourly layout selection over all `time-layout` descendants of the root. -/
def hourlySelection (root : Elem) : Option (List (Option String) × Option String) :=
  findHourly (findallDesc root "time-layout")

/-- Skeleton construction: one record per parseable timestamp, with
`valid_time` and `datetime_readable`; a timestamp string that fails to parse
is skipped (`except ValueError: continue`), while a `None` text reaches
`datetime.fromisoformat(None)` and raises `TypeError`, which the
per-timestamp handler does not catch. -/
def buildSkeleton : List (Option String) → Except PyExn (List ForecastRec)
  | [] => .ok []
  | none :: _ => .error .typeError
  | some s :: rest =>
    match fromisoformat? s with
    | none => buildSkeleton rest
    | some dt =>
      match buildSkeleton rest with
      | .error e => .error e
      | .ok rs =>
        .ok ([("valid_time", JVal.str (pyIsoformat dt)),
              ("datetime_readable", JVal.str (pyStrftime12 dt))] :: rs)

/-- The six parameter-merging calls of `parse_hourly_forecast`, in source
order: temperature, humidity, wind, weather conditions, precipitation
probability, cloud cover. -/
def parseParams (params : Elem) (key : String) (fc0 : List ForecastRec) :
    Except PyExn (List ForecastRec) :=
  exBind (parseTemperatureData params key fc0) (fun fc1 =>
    exBind (parseHumidityData params key fc1) (fun fc2 =>
      exBind (parseWindData params key fc2) (fun fc3 =>
        exBind (parsePrecipitationData params key (parseWeatherConditions params key fc3))
          (fun fc5 => parseCloudCover params key fc5))))

/-- Skeleton construction followed by parameter merging, for a selected
layout: the tail of `parse_hourly_forecast` after layout selection. -/
def parseCoreWith (root : Elem) (times : List (Option String)) (key : String) :
    Except PyExn (List ForecastRec) :=
  match buildSkeleton times with
  | .error e => .error e
  | .ok fc0 =>
    match findDesc root "parameters" with
    | none => .ok fc0
    | some params => parseParams params key fc0

/-- Body of `parse_hourly_forecast` inside its `try`: either the forecast
list, or the uncaught-inside exception that the outer handlers turn into
an empty list. -/
def parseCore (root : Elem) : Except PyExn (List ForecastRec) :=
  match hourlySelection root with
  | none => .ok []
  | some (times, key?) =>
    if times.isEmpty then .ok []
    else
      match key? with
      | none => .ok []
      | some key =>
        if key = "" then .ok []
        else parseCoreWith root times key

/-- `WeatherDWMLParser.parse_hourly_forecast`: the `except` clauses catch
every exception raised inside and return an empty list. -/
def parse_hourly_forecast (root : Elem) : List ForecastRec :=
  match parseCore root with
  | .ok l => l
  | .error _ => []

/-- The raw text handed to `ET.fromstring`: either malformed XML or a
well-formed document with the given root element. -/
inductive XmlText where
  | malformed : XmlText
  | wellFormed : Elem → XmlText

/-- `WeatherDWMLParser.__init__`: `ET.fromstring` returns the root or raises
`ET.ParseError`, which the constructor does not catch. -/
def loadRoot : XmlText → Except PyExn Elem
  | .malformed => .error .parseError
  | .wellFormed root => .ok root

/-- Construct-then-parse pipeline: `WeatherDWMLParser(text).parse_hourly_forecast()`. -/
def runPipeline (x : XmlText) : Except PyExn (List ForecastRec) :=
  match loadRoot x with
  | .error e => .error e
  | .ok root => .ok (parse_hourly_forecast root)

/-- Truncation step of `get_hourly_weather_forecast`:
`if forecasts: forecasts = forecasts[:hours]`. -/
def limitForecasts (forecasts : List ForecastRec) (hours : Nat) : List ForecastRec :=
  if forecasts.isEmpty then forecasts else forecasts.take hours

/-- Closed form of what one `mergeCells` pass does to the record at index `j`
when the loop starts at index `i`: the record is updated exactly when a cell
exists at the position, has non-empty text, and its handler succeeds. -/
def mergedAt (cellFn : String → Except PyExn (ForecastRec → ForecastRec))
    (vs : List Elem) (i j : Nat) (r : ForecastRec) : ForecastRec :=
  if j < i then r
  else
    match vs[j - i]? with
    | none => r
    | some v =>
      match v.text with
      | none => r
      | some s =>
        if s = "" then r
        else
          match cellFn s with
          | .ok g => g r
          | .error _ => r

/-- Closed form of what `parseWeatherGo` does to the record at index `j`. -/
def weatherAt (cs : List Elem) (i j : Nat) (r : ForecastRec) : ForecastRec :=
  if j < i then r
  else
    match cs[j - i]? with
    | none => r
    | some c =>
      setKey r "weather_conditions" (.str ((attr? c "weather-summary").getD "No description"))

/-- A `start-valid-time` element with the given text. -/
def tEl (s : String) : Elem := .mk "start-valid-time" [] (some s) []

/-- A `start-valid-time` element with no text (an empty XML element). -/
def tElNone : Elem := .mk "start-valid-time" [] none []

/-- A `value` element with the given text. -/
def vEl (s : String) : Elem := .mk "value" [] (some s) []

/-- A `time-layout` element with a `layout-key` child and timestamp children. -/
def layoutEl (key : String) (times : List Elem) : Elem :=
  .mk "time-layout" [] none (.mk "layout-key" [] (some key) [] :: times)

/-- Twenty-five identical parseable hourly timestamps. -/
def goodTimes : List Elem := List.replicate 25 (tEl "2025-05-28T18:00:00-05:00")

/-- The skeleton record produced for the timestamp `2025-05-28T18:00:00-05:00`. -/
def goodRec : ForecastRec :=
  [("valid_time", JVal.str "2025-05-28T18:00:00-05:00"),
   ("datetime_readable", JVal.str "2025-05-28 06:00:00 PM")]

/-- A document whose hourly layout `k1` has 25 good timestamps and whose
parameters hold the given series elements. -/
def docWith (series : List Elem) : Elem :=
  .mk "dwml" [] none [layoutEl "k1" goodTimes, .mk "parameters" [] none series]

/-- Counterexample document for C1: a matching hourly temperature series
whose single cell `NA` is non-empty but fails `float()`. -/
def c1doc : Elem :=
  docWith [.mk "temperature" [("time-layout", "k1"), ("type", "hourly"), ("units", "Fahrenheit")]
    none [vEl "NA"]]

/-- Counterexample document for C2: the hourly layout has 25 timestamps, the
first of which is an empty element (text `None`) and the other 24 parseable. -/
def c2doc : Elem :=
  .mk "dwml" [] none
    [layoutEl "k1" (tElNone :: List.replicate 24 (tEl "2025-05-28T18:00:00-05:00"))]

/-- A `time-layout` with 25 timestamps but no `layout-key` child. -/
def c3L1 : Elem := .mk "time-layout" [] none (List.replicate 25 (tEl "2025-01-01T00:00:00"))

/-- A `time-layout` with key `k2` and 25 timestamps of a different day. -/
def c3L2 : Elem := layoutEl "k2" (List.replicate 25 (tEl "2026-02-02T07:00:00"))

/-- Counterexample document for C3: the first `time-layout` with more than 24
timestamps has no `layout-key` child; a later one has key `k2`. -/
def c3doc : Elem := .mk "dwml" [] none [c3L1, c3L2]

/-- Counterexample document for C4: a matching humidity series of 2 values,
the first numeric-valid and the second non-empty but numeric-invalid. -/
def c4doc : Elem :=
  docWith [.mk "humidity" [("time-layout", "k1"), ("units", "percent")] none
    [vEl "55", vEl "xx"]]

/-- Counterexample document for C7: a matching weather series whose first
`weather-conditions` element lacks the `weather-summary` attribute. -/
def c7doc : Elem :=
  docWith [.mk "weather" [("time-layout", "k1")] none [.mk "weather-conditions" [] none []]]

/-- Counterexample document for C8: a matching wind-direction series whose
cell `12.5` is numeric (parseable by `float()`) but not a digit string. -/
def c8doc : Elem :=
  docWith [.mk "direction" [("time-layout", "k1"), ("units", "degrees")] none [vEl "12.5"]]

/-- A record key that no parameter-merging stage ever writes: none of the
temperature keys and none of the five fixed keys. -/
def protectedKey (k : String) : Prop :=
  (∀ t : String, ("temperature_" ++ t) ≠ k) ∧ k ≠ "humidity" ∧ k ≠ "wind" ∧
  k ≠ "weather_conditions" ∧ k ≠ "precipitation_probability" ∧ k ≠ "cloud_cover"

/-- The layouts the selection loop can actually pick: a `layout-key` child
is required before the timestamp count is even examined. -/
def layoutEligible (l : Elem) : Bool :=
  (findChild l "layout-key").isSome && decide (24 < (findallChild l "start-valid-time").length)

/-- Layout selection as claim C3 words it: the first `time-layout` in
document order whose timestamp count exceeds 24, with no requirement of a
`layout-key` child. -/
def claimSelectedLayout (root : Elem) : Option Elem :=
  (findallDesc root "time-layout").find?
    (fun l => decide (24 < (findallChild l "start-valid-time").length))

/-- The timestamp texts of the hourly layout of `docWith`-built documents. -/
def k1times : List (Option String) := List.replicate 25 (some "2025-05-28T18:00:00-05:00")

/-- The timestamp texts of `c2doc`'s layout: one missing text, 24 parseable. -/
def c2times : List (Option String) :=
  none :: List.replicate 24 (some "2025-05-28T18:00:00-05:00")

/-- A value cell that cannot make `float()` raise: empty text, or text that
parses as a float. -/
def cellOk (v : Elem) : Bool :=
  match v.text with
  | none => true
  | some s => s = "" || (pyFloat? s).isSome

/-- A document whose only big layout has an empty layout-key text. -/
def docEmptyKey : Elem := .mk "dwml" [] none [layoutEl "" goodTimes]

/-- A matching humidity series of one numeric-valid cell, for witnesses. -/
def c4whum : Elem :=
  .mk "humidity" [("time-layout", "k1"), ("units", "percent")] none [vEl "55"]

/-- A `parameters` element holding `c4whum`. -/
def c4wparams : Elem := .mk "parameters" [] none [c4whum]

/-- A temperature series referencing a different layout, for witnesses. -/
def c6temp : Elem :=
  .mk "temperature" [("time-layout", "other"), ("type", "maximum")] none [vEl "99"]

example : pyFloat? "72" = some (.finite ⟨72, 0⟩) := by decide
example : pyFloat? "12.5" = some (.finite ⟨125, -1⟩) := by decide
example : pyFloat? "-3e2" = some (.finite ⟨-3, 2⟩) := by decide
example : pyFloat? "NA" = none := by decide
example : pyFloat? "" = none := by decide
example : pyFloat? " 7 " = some (.finite ⟨7, 0⟩) := by decide
example : pyFloat? "Infinity" = some (.inf false) := by decide
example : pyIsdigit "340" = true := by decide
example : pyIsdigit "12.5" = false := by decide
example : pyIsdigit "-45" = false := by decide
example : fromisoformat? "2025-05-28T18:00:00-05:00" =
    some ⟨2025, 5, 28, 18, 0, 0, 0, some (-300)⟩ := by decide
example : fromisoformat? "2025-02-30T18:00:00-05:00" = none := by decide
example : fromisoformat? "not a time" = none := by decide
example : pyIsoformat ⟨2025, 5, 28, 18, 0, 0, 0, some (-300)⟩ =
    "2025-05-28T18:00:00-05:00" := by decide
example : pyStrftime12 ⟨2025, 5, 28, 18, 0, 0, 0, some (-300)⟩ =
    "2025-05-28 06:00:00 PM" := by decide
example : pyStrftime12 ⟨2025, 5, 28, 0, 5, 0, 0, none⟩ =
    "2025-05-28 12:05:00 AM" := by decide
example : parse_hourly_forecast c1doc = [] := by decide
example : parseCore c1doc = .error .valueError := by decide
example : parse_hourly_forecast c2doc = [] := by decide
example : parseCore c2doc = .error .typeError := by decide
example : (parse_hourly_forecast c3doc).length = 25 := by decide
example : (parse_hourly_forecast c3doc).head? =
    some [("valid_time", JVal.str "2026-02-02T07:00:00"),
          ("datetime_readable", JVal.str "2026-02-02 07:00:00 AM")] := by decide
example : parse_hourly_forecast c4doc = [] := by decide
example : (parse_hourly_forecast c7doc).head? =
    some (goodRec ++ [("weather_conditions", JVal.str "No description")]) := by decide
example : (parse_hourly_forecast c8doc).head? =
    some (goodRec ++
      [("wind", JVal.obj [("direction",
        JVal.obj [("value", JVal.str "12.5"), ("units", JVal.str "degrees")])])]) := by decide
example : parse_hourly_forecast (docWith []) = List.replicate 25 goodRec := by decide

theorem getKey_setKey_self (r : ForecastRec) (k : String) (v : JVal) :
    getKey (setKey r k v) k = some v := by
  induction r with
  | nil => simp [setKey, getKey]
  | cons p rest ih =>
    obtain ⟨k1, v1⟩ := p
    by_cases h : k1 = k
    · simp [setKey, getKey, h]
    · simp [setKey, getKey, h, ih]

theorem getKey_setKey_ne (r : ForecastRec) (k k2 : String) (v : JVal) (h : k2 ≠ k) :
    getKey (setKey r k v) k2 = getKey r k2 := by
  have h2 : ¬ k = k2 := fun hh => h hh.symm
  induction r with
  | nil => simp [setKey, getKey, h2]
  | cons p rest ih =>
    obtain ⟨k1, v1⟩ := p
    by_cases h1 : k1 = k
    · subst h1
      simp [setKey, getKey, h2]
    · simp [setKey, getKey, h1, ih]

theorem length_modifyIdx (f : ForecastRec → ForecastRec) :
    ∀ (i : Nat) (l : List ForecastRec), (modifyIdx f i l).length = l.length
  | i, [] => by cases i <;> simp [modifyIdx]
  | 0, _ :: _ => rfl
  | n + 1, r :: rs => by simp [modifyIdx, length_modifyIdx f n rs]

theorem getElem?_modifyIdx (f : ForecastRec → ForecastRec) :
    ∀ (i j : Nat) (l : List ForecastRec),
      (modifyIdx f i l)[j]? = if i = j then (l[j]?).map f else l[j]?
  | i, j, [] => by cases i <;> simp [modifyIdx]
  | 0, 0, r :: rs => by simp [modifyIdx]
  | 0, j + 1, r :: rs => by simp [modifyIdx]
  | i + 1, 0, r :: rs => by simp [modifyIdx]
  | i + 1, j + 1, r :: rs => by
    have ihm := getElem?_modifyIdx f i j rs
    simp [modifyIdx, ihm]

theorem mergedAt_nil (cellFn : String → Except PyExn (ForecastRec → ForecastRec))
    (i j : Nat) (r : ForecastRec) : mergedAt cellFn [] i j r = r := by
  simp [mergedAt]

theorem mergedAt_shift_ne (cellFn : String → Except PyExn (ForecastRec → ForecastRec))
    (v : Elem) (vs : List Elem) (i j : Nat) (r : ForecastRec) (hne : j ≠ i) :
    mergedAt cellFn (v :: vs) i j r = mergedAt cellFn vs (i + 1) j r := by
  by_cases h1 : j < i
  · simp [mergedAt, h1, Nat.lt_succ_of_lt h1]
  · have h2 : i + 1 ≤ j := by omega
    obtain ⟨m, rfl⟩ : ∃ m, j = i + 1 + m := ⟨j - (i + 1), by omega⟩
    have e1 : i + 1 + m - i = m + 1 := by omega
    have e2 : i + 1 + m - (i + 1) = m := by omega
    simp [mergedAt, h1, e1, e2, Nat.not_lt.mpr h2]

theorem mergedAt_here (cellFn : String → Except PyExn (ForecastRec → ForecastRec))
    (v : Elem) (vs : List Elem) (i : Nat) (r : ForecastRec) :
    mergedAt cellFn (v :: vs) i i r =
      (match v.text with
       | none => r
       | some s =>
         if s = "" then r
         else
           match cellFn s with
           | .ok g => g r
           | .error _ => r) := by
  simp [mergedAt]

theorem mergedAt_lt (cellFn : String → Except PyExn (ForecastRec → ForecastRec))
    (vs : List Elem) (i j : Nat) (r : ForecastRec) (h : j < i) :
    mergedAt cellFn vs i j r = r := by
  simp [mergedAt, h]

theorem mergeCells_ok_spec (cellFn : String → Except PyExn (ForecastRec → ForecastRec)) :
    ∀ (vs : List Elem) (i : Nat) (fc l : List ForecastRec),
      mergeCells cellFn i vs fc = .ok l →
      l.length = fc.length ∧ ∀ j, l[j]? = (fc[j]?).map (mergedAt cellFn vs i j)
  | [], i, fc, l, h => by
    simp [mergeCells] at h
    subst h
    refine ⟨rfl, fun j => ?_⟩
    cases hj : fc[j]? with
    | none => simp
    | some r => simp [mergedAt_nil]
  | v :: vs, i, fc, l, h => by
    rw [mergeCells] at h
    by_cases hrange : i < fc.length
    · rw [if_pos hrange] at h
      cases ht : v.text with
      | none =>
        rw [ht] at h
        obtain ⟨hlen, hspec⟩ := mergeCells_ok_spec cellFn vs (i + 1) fc l h
        refine ⟨hlen, fun j => ?_⟩
        rw [hspec j]
        by_cases hij : j = i
        · subst hij
          cases hj : fc[j]? with
          | none => simp
          | some r => simp [mergedAt_here, mergedAt_lt cellFn vs (j + 1) j r (by omega), ht]
        · cases hj : fc[j]? with
          | none => simp
          | some r => simp [mergedAt_shift_ne cellFn v vs i j r hij]
      | some s =>
        rw [ht] at h
        replace h : (if s = "" then mergeCells cellFn (i + 1) vs fc
            else
              match cellFn s with
              | Except.error e => Except.error e
              | Except.ok g => mergeCells cellFn (i + 1) vs (modifyIdx g i fc)) =
            Except.ok l := h
        by_cases hs : s = ""
        · rw [if_pos hs] at h
          obtain ⟨hlen, hspec⟩ := mergeCells_ok_spec cellFn vs (i + 1) fc l h
          refine ⟨hlen, fun j => ?_⟩
          rw [hspec j]
          by_cases hij : j = i
          · subst hij
            cases hj : fc[j]? with
            | none => simp
            | some r =>
              simp [mergedAt_here, mergedAt_lt cellFn vs (j + 1) j r (by omega), ht, hs]
          · cases hj : fc[j]? with
            | none => simp
            | some r => simp [mergedAt_shift_ne cellFn v vs i j r hij]
        · rw [if_neg hs] at h
          cases hcf : cellFn s with
          | error e => rw [hcf] at h; exact absurd h (by simp)
          | ok g =>
            rw [hcf] at h
            obtain ⟨hlen, hspec⟩ := mergeCells_ok_spec cellFn vs (i + 1) (modifyIdx g i fc) l h
            rw [length_modifyIdx] at hlen
            refine ⟨hlen, fun j => ?_⟩
            rw [hspec j, getElem?_modifyIdx]
            by_cases hij : i = j
            · subst hij
              cases hj : fc[i]? with
              | none => simp
              | some r =>
                simp [mergedAt_here, mergedAt_lt cellFn vs (i + 1) i (g r) (by omega), ht, hs,
                  hcf]
            · rw [if_neg hij]
              cases hj : fc[j]? with
              | none => simp
              | some r => simp [mergedAt_shift_ne cellFn v vs i j r (fun hh => hij hh.symm)]
    · rw [if_neg hrange] at h
      obtain ⟨hlen, hspec⟩ := mergeCells_ok_spec cellFn vs (i + 1) fc l h
      refine ⟨hlen, fun j => ?_⟩
      rw [hspec j]
      by_cases hij : j = i
      · subst hij
        have hj : fc[j]? = none := by
          apply List.getElem?_eq_none
          omega
        simp [hj]
      · cases hj : fc[j]? with
        | none => simp
        | some r => simp [mergedAt_shift_ne cellFn v vs i j r hij]

theorem mergeCells_error_bad (cellFn : String → Except PyExn (ForecastRec → ForecastRec)) :
    ∀ (vs : List Elem) (i : Nat) (fc : List ForecastRec) (e : PyExn),
      mergeCells cellFn i vs fc = .error e →
      ∃ n v s, vs[n]? = some v ∧ v.text = some s ∧ s ≠ "" ∧ i + n < fc.length ∧
        cellFn s = .error e
  | [], i, fc, e, h => by simp [mergeCells] at h
  | v :: vs, i, fc, e, h => by
    rw [mergeCells] at h
    by_cases hrange : i < fc.length
    · rw [if_pos hrange] at h
      cases ht : v.text with
      | none =>
        rw [ht] at h
        obtain ⟨n, v2, s, h1, h2, h3, h4, h5⟩ := mergeCells_error_bad cellFn vs (i + 1) fc e h
        exact ⟨n + 1, v2, s, by simpa using h1, h2, h3, by omega, h5⟩
      | some s =>
        rw [ht] at h
        replace h : (if s = "" then mergeCells cellFn (i + 1) vs fc
            else
              match cellFn s with
              | Except.error e2 => Except.error e2
              | Except.ok g => mergeCells cellFn (i + 1) vs (modifyIdx g i fc)) =
            Except.error e := h
        by_cases hs : s = ""
        · rw [if_pos hs] at h
          obtain ⟨n, v2, s2, h1, h2, h3, h4, h5⟩ := mergeCells_error_bad cellFn vs (i + 1) fc e h
          exact ⟨n + 1, v2, s2, by simpa using h1, h2, h3, by omega, h5⟩
        · rw [if_neg hs] at h
          cases hcf : cellFn s with
          | error e2 =>
            rw [hcf] at h
            have he : e2 = e := by
              have := h
              simp at this
              exact this
            subst he
            exact ⟨0, v, s, by simp, ht, hs, by omega, hcf⟩
          | ok g =>
            rw [hcf] at h
            obtain ⟨n, v2, s2, h1, h2, h3, h4, h5⟩ :=
              mergeCells_error_bad cellFn vs (i + 1) (modifyIdx g i fc) e h
            rw [length_modifyIdx] at h4
            exact ⟨n + 1, v2, s2, by simpa using h1, h2, h3, by omega, h5⟩
    · rw [if_neg hrange] at h
      obtain ⟨n, v2, s, h1, h2, h3, h4, h5⟩ := mergeCells_error_bad cellFn vs (i + 1) fc e h
      exact ⟨n + 1, v2, s, by simpa using h1, h2, h3, by omega, h5⟩

theorem mergeCells_error_of_bad (cellFn : String → Except PyExn (ForecastRec → ForecastRec)) :
    ∀ (vs : List Elem) (i : Nat) (fc : List ForecastRec) (n : Nat) (v : Elem) (s : String)
      (e : PyExn),
      vs[n]? = some v → i + n < fc.length → v.text = some s → s ≠ "" → cellFn s = .error e →
      ∃ e2, mergeCells cellFn i vs fc = .error e2
  | [], _, _, n, _, _, _, hn, _, _, _, _ => by simp at hn
  | v0 :: vs, i, fc, n, v, s, e, hn, hrange, ht, hs, hcf => by
    rw [mergeCells]
    have hrange0 : i < fc.length := by omega
    rw [if_pos hrange0]
    cases n with
    | zero =>
      simp at hn
      subst hn
      rw [ht]
      show ∃ e2, (if s = "" then mergeCells cellFn (i + 1) vs fc
          else
            match cellFn s with
            | Except.error e3 => Except.error e3
            | Except.ok g => mergeCells cellFn (i + 1) vs (modifyIdx g i fc)) =
          Except.error e2
      rw [if_neg hs, hcf]
      exact ⟨e, rfl⟩
    | succ m =>
      simp at hn
      cases ht0 : v0.text with
      | none =>
        exact mergeCells_error_of_bad cellFn vs (i + 1) fc m v s e hn (by omega) ht hs hcf
      | some s0 =>
        show ∃ e2, (if s0 = "" then mergeCells cellFn (i + 1) vs fc
            else
              match cellFn s0 with
              | Except.error e3 => Except.error e3
              | Except.ok g => mergeCells cellFn (i + 1) vs (modifyIdx g i fc)) =
            Except.error e2
        by_cases hs0 : s0 = ""
        · rw [if_pos hs0]
          exact mergeCells_error_of_bad cellFn vs (i + 1) fc m v s e hn (by omega) ht hs hcf
        · rw [if_neg hs0]
          cases hcf0 : cellFn s0 with
          | error e0 => exact ⟨e0, rfl⟩
          | ok g =>
            refine mergeCells_error_of_bad cellFn vs (i + 1) (modifyIdx g i fc) m v s e hn
              ?_ ht hs hcf
            rw [length_modifyIdx]
            omega

theorem mergedAt_getKey (cellFn : String → Except PyExn (ForecastRec → ForecastRec))
    (k : String)
    (hcell : ∀ s g, cellFn s = .ok g → ∀ r, getKey (g r) k = getKey r k)
    (vs : List Elem) (i j : Nat) (r : ForecastRec) :
    getKey (mergedAt cellFn vs i j r) k = getKey r k := by
  rw [mergedAt]
  by_cases h1 : j < i
  · rw [if_pos h1]
  · rw [if_neg h1]
    cases hv : vs[j - i]? with
    | none => rfl
    | some v =>
      show getKey
        (match v.text with
         | none => r
         | some s =>
           if s = "" then r
           else
             match cellFn s with
             | .ok g => g r
             | .error _ => r) k = getKey r k
      cases ht : v.text with
      | none => rfl
      | some s =>
        show getKey
          (if s = "" then r
           else
             match cellFn s with
             | .ok g => g r
             | .error _ => r) k = getKey r k
        by_cases hs : s = ""
        · rw [if_pos hs]
        · rw [if_neg hs]
          cases hcf : cellFn s with
          | error e => rfl
          | ok g =>
            show getKey (g r) k = getKey r k
            exact hcell s g hcf r

theorem mergeCells_preserve (cellFn : String → Except PyExn (ForecastRec → ForecastRec))
    (k : String)
    (hcell : ∀ s g, cellFn s = .ok g → ∀ r, getKey (g r) k = getKey r k)
    (vs : List Elem) (i : Nat) (fc l : List ForecastRec)
    (h : mergeCells cellFn i vs fc = .ok l) :
    l.length = fc.length ∧
      ∀ j : Nat, (l[j]?).map (fun r => getKey r k) = (fc[j]?).map (fun r => getKey r k) := by
  obtain ⟨hlen, hspec⟩ := mergeCells_ok_spec cellFn vs i fc l h
  refine ⟨hlen, fun j => ?_⟩
  rw [hspec j]
  cases fc[j]? with
  | none => rfl
  | some r => simp [mergedAt_getKey cellFn k hcell vs i j r]

theorem digit_not_space {c : Char} (h : c.isDigit = true) : isSpaceChar c = false := by
  cases hb : isSpaceChar c with
  | false => rfl
  | true =>
    exfalso
    simp only [isSpaceChar, Bool.or_eq_true, beq_iff_eq] at hb
    rcases hb with (((((h1 | h1) | h1) | h1) | h1) | h1) <;> subst h1 <;>
      exact absurd h (by decide)

theorem digit_ne_minus {c : Char} (h : c.isDigit = true) : c ≠ '-' := by
  intro he
  subst he
  exact absurd h (by decide)

theorem digit_ne_plus {c : Char} (h : c.isDigit = true) : c ≠ '+' := by
  intro he
  subst he
  exact absurd h (by decide)

theorem dropWhile_eq_self_of_all {p : Char → Bool} :
    ∀ {l : List Char}, (∀ c ∈ l, p c = false) → l.dropWhile p = l
  | [], _ => rfl
  | c :: cs, h => by
    have hc : p c = false := h c (List.mem_cons_self c cs)
    simp [List.dropWhile_cons, hc]

theorem trimChars_eq_self {cs : List Char} (h : ∀ c ∈ cs, isSpaceChar c = false) :
    trimChars cs = cs := by
  unfold trimChars
  rw [dropWhile_eq_self_of_all h]
  rw [dropWhile_eq_self_of_all (fun c hc => h c (List.mem_reverse.mp hc)), List.reverse_reverse]

theorem takeWhile_eq_self_of_all {p : Char → Bool} :
    ∀ {l : List Char}, (∀ c ∈ l, p c = true) → l.takeWhile p = l
  | [], _ => rfl
  | c :: cs, h => by
    have hc : p c = true := h c (List.mem_cons_self c cs)
    simp [List.takeWhile_cons, hc]
    first
    | exact takeWhile_eq_self_of_all fun c2 h2 => h c2 (List.mem_cons_of_mem c h2)
    | exact fun c2 h2 => h c2 (List.mem_cons_of_mem c h2)

theorem dropWhile_eq_nil_of_all {p : Char → Bool} :
    ∀ {l : List Char}, (∀ c ∈ l, p c = true) → l.dropWhile p = []
  | [], _ => rfl
  | c :: cs, h => by
    have hc : p c = true := h c (List.mem_cons_self c cs)
    simp [List.dropWhile_cons, hc]
    first
    | exact dropWhile_eq_nil_of_all fun c2 h2 => h c2 (List.mem_cons_of_mem c h2)
    | exact fun c2 h2 => h c2 (List.mem_cons_of_mem c h2)

theorem readSign_digits {c : Char} {cs : List Char} (h : c.isDigit = true) :
    readSign (c :: cs) = (false, c :: cs) := by
  simp [readSign, digit_ne_minus h, digit_ne_plus h]

theorem parseDec_digits {cs : List Char} (hne : cs ≠ [])
    (hall : ∀ c ∈ cs, c.isDigit = true) :
    parseDec false cs = some (mkFin false cs [] false 0) := by
  unfold parseDec
  rw [takeWhile_eq_self_of_all hall, dropWhile_eq_nil_of_all hall]
  simp [hne]

theorem pyFloat?_digits {s : String} (h : pyIsdigit s = true) :
    pyFloat? s = some (mkFin false s.data [] false 0) := by
  unfold pyIsdigit at h
  rw [Bool.and_eq_true] at h
  obtain ⟨hne, hall⟩ := h
  have hall2 : ∀ c ∈ s.data, c.isDigit = true := fun c hc => List.all_eq_true.mp hall c hc
  have hne2 : s.data ≠ [] := by
    intro he
    rw [he] at hne
    exact absurd hne (by decide)
  unfold pyFloat?
  rw [trimChars_eq_self (fun c hc => digit_not_space (hall2 c hc))]
  obtain ⟨c, cs, hcons⟩ := List.exists_cons_of_ne_nil hne2
  rw [hcons]
  rw [readSign_digits (hall2 c (by rw [hcons]; exact List.mem_cons_self c cs))]
  show pyFloatTail false (c :: cs) = some (mkFin false (c :: cs) [] false 0)
  have hd := parseDec_digits (hcons ▸ hne2) (hcons ▸ hall2)
  unfold pyFloatTail
  rw [hd]

theorem getKey_skel_valid (dt : PyDatetime) :
    getKey [("valid_time", JVal.str (pyIsoformat dt)),
      ("datetime_readable", JVal.str (pyStrftime12 dt))] "valid_time" =
      some (JVal.str (pyIsoformat dt)) := by
  simp [getKey]

theorem getKey_skel_readable (dt : PyDatetime) :
    getKey [("valid_time", JVal.str (pyIsoformat dt)),
      ("datetime_readable", JVal.str (pyStrftime12 dt))] "datetime_readable" =
      some (JVal.str (pyStrftime12 dt)) := by
  rw [getKey, if_neg (by decide), getKey, if_pos rfl]

theorem buildSkeleton_spec :
    ∀ (ts : List (Option String)) (l : List ForecastRec),
      buildSkeleton ts = .ok l →
      l.length = ts.countP (fun t? => (t?.bind fromisoformat?).isSome) ∧
      l.map (fun r => getKey r "valid_time") =
        (ts.filterMap (fun t? => t?.bind fromisoformat?)).map
          (fun dt => some (JVal.str (pyIsoformat dt))) ∧
      l.map (fun r => getKey r "datetime_readable") =
        (ts.filterMap (fun t? => t?.bind fromisoformat?)).map
          (fun dt => some (JVal.str (pyStrftime12 dt))) ∧
      ∀ r ∈ l, ∃ s dt, some s ∈ ts ∧ fromisoformat? s = some dt ∧
        getKey r "valid_time" = some (JVal.str (pyIsoformat dt)) ∧
        getKey r "datetime_readable" = some (JVal.str (pyStrftime12 dt))
  | [], l, h => by
    simp [buildSkeleton] at h
    subst h
    simp
  | none :: ts, l, h => by simp [buildSkeleton] at h
  | some s :: ts, l, h => by
    rw [buildSkeleton] at h
    cases hf : fromisoformat? s with
    | none =>
      rw [hf] at h
      obtain ⟨h1, h2, h3, h4⟩ := buildSkeleton_spec ts l h
      refine ⟨?_, ?_, ?_, ?_⟩
      · simp [List.countP_cons, hf, h1]
      · simp [List.filterMap_cons, hf, h2]
      · simp [List.filterMap_cons, hf, h3]
      · intro r hr
        obtain ⟨s2, dt2, hm, hfd, hv, hd⟩ := h4 r hr
        exact ⟨s2, dt2, List.mem_cons_of_mem _ hm, hfd, hv, hd⟩
    | some dt =>
      rw [hf] at h
      cases hb : buildSkeleton ts with
      | error e =>
        rw [hb] at h
        exact absurd h (by simp)
      | ok rs =>
        rw [hb] at h
        replace h : Except.ok ([("valid_time", JVal.str (pyIsoformat dt)),
            ("datetime_readable", JVal.str (pyStrftime12 dt))] :: rs) = Except.ok l := h
        injection h with h
        subst h
        obtain ⟨h1, h2, h3, h4⟩ := buildSkeleton_spec ts rs hb
        refine ⟨?_, ?_, ?_, ?_⟩
        · simp [List.countP_cons, hf, h1]
        · simp [List.filterMap_cons, hf, h2, getKey_skel_valid]
        · simp [List.filterMap_cons, hf, h3, getKey_skel_readable]
        · intro r hr
          rcases List.mem_cons.mp hr with hr1 | hr2
          · subst hr1
            exact ⟨s, dt, List.mem_cons_self _ _, hf, getKey_skel_valid dt,
              getKey_skel_readable dt⟩
          · obtain ⟨s2, dt2, hm, hfd, hv, hd⟩ := h4 r hr2
            exact ⟨s2, dt2, List.mem_cons_of_mem _ hm, hfd, hv, hd⟩

theorem buildSkeleton_error_iff (ts : List (Option String)) :
    (∃ e, buildSkeleton ts = .error e) ↔ none ∈ ts := by
  induction ts with
  | nil => simp [buildSkeleton]
  | cons t ts ih =>
    cases t with
    | none => simp [buildSkeleton]
    | some s =>
      rw [buildSkeleton]
      cases hf : fromisoformat? s with
      | none => simpa using ih
      | some dt =>
        cases hb : buildSkeleton ts with
        | error e =>
          simp only [List.mem_cons]
          constructor
          · intro _
            exact Or.inr (ih.mp ⟨e, hb⟩)
          · intro _
            exact ⟨e, rfl⟩
        | ok rs =>
          simp only [List.mem_cons]
          constructor
          · intro ⟨e, he⟩
            exact absurd he (by simp)
          · intro hmem
            rcases hmem with h1 | h2
            · exact absurd h1 (by simp)
            · obtain ⟨e, he⟩ := ih.mpr h2
              rw [he] at hb
              exact absurd hb (by simp)

theorem weatherAt_nil (i j : Nat) (r : ForecastRec) : weatherAt [] i j r = r := by
  simp [weatherAt]

theorem weatherAt_lt (cs : List Elem) (i j : Nat) (r : ForecastRec) (h : j < i) :
    weatherAt cs i j r = r := by
  simp [weatherAt, h]

theorem weatherAt_shift_ne (c : Elem) (cs : List Elem) (i j : Nat) (r : ForecastRec)
    (hne : j ≠ i) : weatherAt (c :: cs) i j r = weatherAt cs (i + 1) j r := by
  by_cases h1 : j < i
  · simp [weatherAt, h1, Nat.lt_succ_of_lt h1]
  · have h2 : i + 1 ≤ j := by omega
    obtain ⟨m, rfl⟩ : ∃ m, j = i + 1 + m := ⟨j - (i + 1), by omega⟩
    have e1 : i + 1 + m - i = m + 1 := by omega
    have e2 : i + 1 + m - (i + 1) = m := by omega
    simp [weatherAt, h1, e1, e2, Nat.not_lt.mpr h2]

theorem weatherAt_here (c : Elem) (cs : List Elem) (i : Nat) (r : ForecastRec) :
    weatherAt (c :: cs) i i r =
      setKey r "weather_conditions" (.str ((attr? c "weather-summary").getD "No description")) := by
  simp [weatherAt]

theorem parseWeatherGo_spec :
    ∀ (cs : List Elem) (i : Nat) (fc : List ForecastRec),
      (parseWeatherGo i cs fc).length = fc.length ∧
      ∀ j : Nat, (parseWeatherGo i cs fc)[j]? = (fc[j]?).map (weatherAt cs i j)
  | [], i, fc => by
    refine ⟨rfl, fun j => ?_⟩
    cases hj : fc[j]? with
    | none => simp [parseWeatherGo, hj]
    | some r => simp [parseWeatherGo, hj, weatherAt_nil]
  | c :: cs, i, fc => by
    rw [parseWeatherGo]
    by_cases hrange : i < fc.length
    · rw [if_pos hrange]
      obtain ⟨hlen, hspec⟩ :=
        parseWeatherGo_spec cs (i + 1)
          (modifyIdx
            (fun r => setKey r "weather_conditions"
              (.str ((attr? c "weather-summary").getD "No description"))) i fc)
      rw [length_modifyIdx] at hlen
      refine ⟨hlen, fun j => ?_⟩
      rw [hspec j, getElem?_modifyIdx]
      by_cases hij : i = j
      · subst hij
        cases hj : fc[i]? with
        | none => simp
        | some r => simp [weatherAt_here, weatherAt_lt cs (i + 1) i _ (by omega)]
      · rw [if_neg hij]
        cases hj : fc[j]? with
        | none => simp
        | some r => simp [weatherAt_shift_ne c cs i j r (fun hh => hij hh.symm)]
    · rw [if_neg hrange]
      obtain ⟨hlen, hspec⟩ := parseWeatherGo_spec cs (i + 1) fc
      refine ⟨hlen, fun j => ?_⟩
      rw [hspec j]
      by_cases hij : j = i
      · subst hij
        have hj : fc[j]? = none := by
          apply List.getElem?_eq_none
          omega
        simp [hj]
      · cases hj : fc[j]? with
        | none => simp
        | some r => simp [weatherAt_shift_ne c cs i j r hij]

theorem exBind_ok (a : List ForecastRec)
    (f : List ForecastRec → Except PyExn (List ForecastRec)) : exBind (.ok a) f = f a := rfl

theorem exBind_error (e : PyExn)
    (f : List ForecastRec → Except PyExn (List ForecastRec)) :
    exBind (.error e) f = .error e := rfl

theorem numCellFn_preserve (key units k : String) (hk : k ≠ key) :
    ∀ s g, numCellFn key units s = .ok g → ∀ r, getKey (g r) k = getKey r k := by
  intro s g hg r
  unfold numCellFn at hg
  cases hp : pyFloat? s with
  | none =>
    rw [hp] at hg
    exact absurd hg (by simp)
  | some f =>
    rw [hp] at hg
    replace hg : Except.ok (ε := PyExn) (fun r => setKey r key (vuObj f units)) =
        Except.ok g := hg
    injection hg with hg
    subst hg
    exact getKey_setKey_ne r key k (vuObj f units) hk

theorem getKey_setWind_ne (r : ForecastRec) (field : String) (v : JVal) (k : String)
    (hk : k ≠ "wind") : getKey (setWind r field v) k = getKey r k := by
  unfold setWind
  exact getKey_setKey_ne r "wind" k _ hk

theorem windSpeedCellFn_preserve (units k : String) (hk : k ≠ "wind") :
    ∀ s g, windSpeedCellFn units s = .ok g → ∀ r, getKey (g r) k = getKey r k := by
  intro s g hg r
  unfold windSpeedCellFn at hg
  cases hp : pyFloat? s with
  | none =>
    rw [hp] at hg
    exact absurd hg (by simp)
  | some f =>
    rw [hp] at hg
    replace hg : Except.ok (ε := PyExn) (fun r => setWind r "speed" (vuObj f units)) =
        Except.ok g := hg
    injection hg with hg
    subst hg
    exact getKey_setWind_ne r "speed" _ k hk

theorem windDirCellFn_preserve (units k : String) (hk : k ≠ "wind") :
    ∀ s g, windDirCellFn units s = .ok g → ∀ r, getKey (g r) k = getKey r k := by
  intro s g hg r
  unfold windDirCellFn at hg
  by_cases hd : pyIsdigit s
  · rw [if_pos hd] at hg
    cases hp : pyFloat? s with
    | none =>
      rw [hp] at hg
      exact absurd hg (by simp)
    | some f =>
      rw [hp] at hg
      replace hg : Except.ok (ε := PyExn)
          (fun r => setWind r "direction" (.obj [("value", .num f), ("units", .str units)])) =
          Except.ok g := hg
      injection hg with hg
      subst hg
      exact getKey_setWind_ne r "direction" _ k hk
  · rw [if_neg hd] at hg
    injection hg with hg
    subst hg
    exact getKey_setWind_ne r "direction" _ k hk

theorem parseTemperatureGo_preserve (key k : String)
    (hk : ∀ t : String, ("temperature_" ++ t) ≠ k) :
    ∀ (ts : List Elem) (fc l : List ForecastRec),
      parseTemperatureGo key ts fc = .ok l →
      l.length = fc.length ∧
      ∀ j : Nat, (l[j]?).map (fun r => getKey r k) = (fc[j]?).map (fun r => getKey r k)
  | [], fc, l, h => by
    replace h : Except.ok (ε := PyExn) fc = Except.ok l := h
    injection h with h
    subst h
    exact ⟨rfl, fun j => rfl⟩
  | t :: ts, fc, l, h => by
    rw [parseTemperatureGo] at h
    by_cases hm : attr? t "time-layout" = some key
    · rw [if_pos hm] at h
      cases hmg : mergeNum ("temperature_" ++ ((attr? t "type").getD "unknown").toLower)
          ((attr? t "units").getD "Fahrenheit") (findallChild t "value") fc with
      | error e =>
        rw [hmg] at h
        exact absurd h (by simp)
      | ok fc1 =>
        rw [hmg] at h
        obtain ⟨hlen1, hp1⟩ := mergeCells_preserve _ k
          (numCellFn_preserve _ _ k (fun hh => hk _ hh.symm)) _ 0 fc fc1 hmg
        obtain ⟨hlen2, hp2⟩ := parseTemperatureGo_preserve key k hk ts fc1 l h
        exact ⟨hlen2.trans hlen1, fun j => (hp2 j).trans (hp1 j)⟩
    · rw [if_neg hm] at h
      exact parseTemperatureGo_preserve key k hk ts fc l h

theorem mergeNumStage_preserve (recKey k : String) (hk : k ≠ recKey) :
    ∀ (opt : Option Elem) (defUnits : String) (fc l : List ForecastRec),
      (match opt with
       | none => Except.ok fc
       | some e => mergeNum recKey ((attr? e "units").getD defUnits)
           (findallChild e "value") fc) = .ok l →
      l.length = fc.length ∧
      ∀ j : Nat, (l[j]?).map (fun r => getKey r k) = (fc[j]?).map (fun r => getKey r k) := by
  intro opt defUnits fc l h
  cases opt with
  | none =>
    replace h : Except.ok (ε := PyExn) fc = Except.ok l := h
    injection h with h
    subst h
    exact ⟨rfl, fun j => rfl⟩
  | some e =>
    exact mergeCells_preserve _ k (numCellFn_preserve _ _ k hk) _ 0 fc l h

theorem parseWindData_preserve (params : Elem) (key k : String) (hk : k ≠ "wind")
    (fc l : List ForecastRec) (h : parseWindData params key fc = .ok l) :
    l.length = fc.length ∧
    ∀ j : Nat, (l[j]?).map (fun r => getKey r k) = (fc[j]?).map (fun r => getKey r k) := by
  rw [parseWindData] at h
  cases hs : parseWindSpeedStage params key fc with
  | error e =>
    rw [hs, exBind_error] at h
    exact absurd h (by simp)
  | ok fc1 =>
    rw [hs, exBind_ok] at h
    have h1 : fc1.length = fc.length ∧
        ∀ j : Nat, (fc1[j]?).map (fun r => getKey r k) = (fc[j]?).map (fun r => getKey r k) := by
      unfold parseWindSpeedStage at hs
      cases hws : findDescAttr params "wind-speed" "time-layout" key with
      | none =>
        rw [hws] at hs
        replace hs : Except.ok (ε := PyExn) fc = Except.ok fc1 := hs
        injection hs with hs
        subst hs
        exact ⟨rfl, fun j => rfl⟩
      | some ws =>
        rw [hws] at hs
        exact mergeCells_preserve _ k (windSpeedCellFn_preserve _ k hk) _ 0 fc fc1 hs
    have h2 : l.length = fc1.length ∧
        ∀ j : Nat, (l[j]?).map (fun r => getKey r k) = (fc1[j]?).map (fun r => getKey r k) := by
      unfold parseWindDirStage at h
      cases hwd : findDescAttr params "direction" "time-layout" key with
      | none =>
        rw [hwd] at h
        replace h : Except.ok (ε := PyExn) fc1 = Except.ok l := h
        injection h with h
        subst h
        exact ⟨rfl, fun j => rfl⟩
      | some wd =>
        rw [hwd] at h
        exact mergeCells_preserve _ k (windDirCellFn_preserve _ k hk) _ 0 fc1 l h
    exact ⟨h2.1.trans h1.1, fun j => (h2.2 j).trans (h1.2 j)⟩

theorem weatherAt_getKey (cs : List Elem) (i j : Nat) (r : ForecastRec) (k : String)
    (hk : k ≠ "weather_conditions") : getKey (weatherAt cs i j r) k = getKey r k := by
  rw [weatherAt]
  by_cases h1 : j < i
  · rw [if_pos h1]
  · rw [if_neg h1]
    cases hv : cs[j - i]? with
    | none => rfl
    | some c =>
      show getKey (setKey r "weather_conditions"
        (.str ((attr? c "weather-summary").getD "No description"))) k = getKey r k
      exact getKey_setKey_ne r "weather_conditions" k _ hk

theorem parseWeatherConditions_preserve (params : Elem) (key k : String)
    (hk : k ≠ "weather_conditions") (fc : List ForecastRec) :
    (parseWeatherConditions params key fc).length = fc.length ∧
    ∀ j : Nat, ((parseWeatherConditions params key fc)[j]?).map (fun r => getKey r k) =
      (fc[j]?).map (fun r => getKey r k) := by
  rw [parseWeatherConditions]
  cases hw : findDescAttr params "weather" "time-layout" key with
  | none => exact ⟨rfl, fun j => rfl⟩
  | some w =>
    obtain ⟨hlen, hspec⟩ := parseWeatherGo_spec (findallChild w "weather-conditions") 0 fc
    refine ⟨hlen, fun j => ?_⟩
    rw [hspec j]
    cases fc[j]? with
    | none => rfl
    | some r => simp [weatherAt_getKey _ _ _ _ _ hk]

theorem parseParams_preserve (params : Elem) (key k : String) (hk : protectedKey k)
    (fc l : List ForecastRec) (h : parseParams params key fc = .ok l) :
    l.length = fc.length ∧
    ∀ j : Nat, (l[j]?).map (fun r => getKey r k) = (fc[j]?).map (fun r => getKey r k) := by
  obtain ⟨hkt, hkh, hkw, hkc, hkp, hkcc⟩ := hk
  rw [parseParams] at h
  cases h1 : parseTemperatureData params key fc with
  | error e => rw [h1, exBind_error] at h; exact absurd h (by simp)
  | ok fc1 =>
    rw [h1, exBind_ok] at h
    cases h2 : parseHumidityData params key fc1 with
    | error e => rw [h2, exBind_error] at h; exact absurd h (by simp)
    | ok fc2 =>
      rw [h2, exBind_ok] at h
      cases h3 : parseWindData params key fc2 with
      | error e => rw [h3, exBind_error] at h; exact absurd h (by simp)
      | ok fc3 =>
        rw [h3, exBind_ok] at h
        cases h5 : parsePrecipitationData params key (parseWeatherConditions params key fc3) with
        | error e => rw [h5, exBind_error] at h; exact absurd h (by simp)
        | ok fc5 =>
          rw [h5, exBind_ok] at h
          cases h6 : parseCloudCover params key fc5 with
          | error e => rw [h6] at h; exact absurd h (by simp)
          | ok fc6 =>
            rw [h6] at h
            injection h with h
            subst h
            obtain ⟨e1, p1⟩ := parseTemperatureGo_preserve key k hkt _ fc fc1 h1
            obtain ⟨e2, p2⟩ := mergeNumStage_preserve "humidity" k hkh _ "percent" fc1 fc2 h2
            obtain ⟨e3, p3⟩ := parseWindData_preserve params key k hkw fc2 fc3 h3
            obtain ⟨e4, p4⟩ := parseWeatherConditions_preserve params key k hkc fc3
            obtain ⟨e5, p5⟩ := mergeNumStage_preserve "precipitation_probability" k hkp _
              "percent" _ fc5 h5
            obtain ⟨e6, p6⟩ := mergeNumStage_preserve "cloud_cover" k hkcc _ "percent" fc5 fc6 h6
            refine ⟨by rw [e6, e5, e4, e3, e2, e1], fun j => ?_⟩
            exact ((((p6 j).trans (p5 j)).trans (p4 j)).trans ((p3 j).trans (p2 j))).trans (p1 j)

theorem tempKey_ne_of_head (t k : String) {c : Char} {ks : List Char}
    (hk : k.data = c :: ks) (hc : c ≠ 't') : ("temperature_" ++ t) ≠ k := by
  intro he
  have hdata : ("temperature_" ++ t).data = k.data := congrArg String.data he
  rw [String.data_append, hk] at hdata
  have hd : "temperature_".data = 't' :: "emperature_".data := rfl
  rw [hd, List.cons_append] at hdata
  injection hdata with h1 _
  exact hc h1.symm

theorem protectedKey_valid : protectedKey "valid_time" := by
  refine ⟨fun t => tempKey_ne_of_head t _ rfl (by decide), ?_, ?_, ?_, ?_, ?_⟩ <;> decide

theorem protectedKey_readable : protectedKey "datetime_readable" := by
  refine ⟨fun t => tempKey_ne_of_head t _ rfl (by decide), ?_, ?_, ?_, ?_, ?_⟩ <;> decide

theorem findHourly_eq :
    ∀ (ls : List Elem),
      findHourly ls =
        match ls.find? layoutEligible with
        | none => none
        | some l =>
          some ((findallChild l "start-valid-time").map Elem.text,
            (findChild l "layout-key").bind Elem.text)
  | [] => rfl
  | l :: ls => by
    rw [findHourly]
    cases hlk : findChild l "layout-key" with
    | none =>
      have he : layoutEligible l = false := by
        unfold layoutEligible
        rw [hlk]
        rfl
      rw [List.find?_cons_of_neg _ (by rw [he]; exact Bool.false_ne_true)]
      exact findHourly_eq ls
    | some lk =>
      show (if 24 < (findallChild l "start-valid-time").length then
          some ((findallChild l "start-valid-time").map Elem.text, lk.text)
        else findHourly ls) =
        match List.find? layoutEligible (l :: ls) with
        | none => none
        | some l2 =>
          some ((findallChild l2 "start-valid-time").map Elem.text,
            (findChild l2 "layout-key").bind Elem.text)
      by_cases hn : 24 < (findallChild l "start-valid-time").length
      · have he : layoutEligible l = true := by
          unfold layoutEligible
          rw [hlk]
          simpa using hn
        rw [if_pos hn, List.find?_cons_of_pos _ he]
        show some ((findallChild l "start-valid-time").map Elem.text, lk.text) =
          some ((findallChild l "start-valid-time").map Elem.text,
            (findChild l "layout-key").bind Elem.text)
        rw [hlk]
        rfl
      · have he : layoutEligible l = false := by
          unfold layoutEligible
          rw [hlk]
          simpa using hn
        rw [if_neg hn, List.find?_cons_of_neg _ (by rw [he]; exact Bool.false_ne_true)]
        exact findHourly_eq ls

theorem parseCore_ok_pres (root : Elem) (times : List (Option String)) (key : String)
    (l : List ForecastRec) (k : String) (hk : protectedKey k)
    (hsel : hourlySelection root = some (times, some key)) (hkey : key ≠ "")
    (hok : parseCore root = .ok l) :
    ∃ sk, buildSkeleton times = .ok sk ∧ l.length = sk.length ∧
      ∀ j : Nat, (l[j]?).map (fun r => getKey r k) = (sk[j]?).map (fun r => getKey r k) := by
  rw [parseCore, hsel] at hok
  replace hok : (if times.isEmpty then Except.ok []
      else if key = "" then Except.ok [] else parseCoreWith root times key) = Except.ok l := hok
  by_cases hemp : times.isEmpty
  · rw [if_pos hemp] at hok
    injection hok with hok
    subst hok
    have : times = [] := by
      cases times with
      | nil => rfl
      | cons a b => exact absurd hemp (by simp)
    subst this
    exact ⟨[], rfl, rfl, fun j => rfl⟩
  · rw [if_neg hemp, if_neg hkey] at hok
    unfold parseCoreWith at hok
    cases hb : buildSkeleton times with
    | error e =>
      rw [hb] at hok
      exact absurd hok (by simp)
    | ok fc0 =>
      rw [hb] at hok
      cases hp : findDesc root "parameters" with
      | none =>
        rw [hp] at hok
        injection hok with hok
        subst hok
        exact ⟨fc0, rfl, rfl, fun j => rfl⟩
      | some params =>
        rw [hp] at hok
        obtain ⟨hlen, hpt⟩ := parseParams_preserve params key k hk fc0 l hok
        exact ⟨fc0, rfl, hlen, hpt⟩

theorem parse_eq_of_core (root : Elem) (l : List ForecastRec)
    (h : parseCore root = .ok l) : parse_hourly_forecast root = l := by
  unfold parse_hourly_forecast
  rw [h]

theorem parse_empty_of_core_error (root : Elem) (e : PyExn)
    (h : parseCore root = .error e) : parse_hourly_forecast root = [] := by
  unfold parse_hourly_forecast
  rw [h]

theorem mergedAt_oob (cellFn : String → Except PyExn (ForecastRec → ForecastRec))
    (vs : List Elem) (j : Nat) (r : ForecastRec) (h : vs[j]? = none) :
    mergedAt cellFn vs 0 j r = r := by
  rw [mergedAt, if_neg (by omega)]
  have : j - 0 = j := by omega
  rw [this, h]

theorem mergedAt_skipcell (cellFn : String → Except PyExn (ForecastRec → ForecastRec))
    (vs : List Elem) (j : Nat) (r : ForecastRec) (v : Elem) (hv : vs[j]? = some v)
    (ht : v.text = none ∨ v.text = some "") :
    mergedAt cellFn vs 0 j r = r := by
  rw [mergedAt, if_neg (by omega)]
  have hj : j - 0 = j := by omega
  rw [hj, hv]
  show (match v.text with
    | none => r
    | some s =>
      if s = "" then r
      else
        match cellFn s with
        | .ok g => g r
        | .error _ => r) = r
  rcases ht with ht | ht <;> rw [ht]
  rfl

theorem mergedAt_fill (cellFn : String → Except PyExn (ForecastRec → ForecastRec))
    (vs : List Elem) (j : Nat) (r : ForecastRec) (v : Elem) (s : String)
    (g : ForecastRec → ForecastRec) (hv : vs[j]? = some v) (ht : v.text = some s)
    (hs : s ≠ "") (hg : cellFn s = .ok g) :
    mergedAt cellFn vs 0 j r = g r := by
  rw [mergedAt, if_neg (by omega)]
  have hj : j - 0 = j := by omega
  rw [hj, hv]
  show (match v.text with
    | none => r
    | some s =>
      if s = "" then r
      else
        match cellFn s with
        | .ok g => g r
        | .error _ => r) = g r
  rw [ht]
  show (if s = "" then r
    else
      match cellFn s with
      | .ok g => g r
      | .error _ => r) = g r
  rw [if_neg hs, hg]

theorem weatherAt_fill (cs : List Elem) (j : Nat) (r : ForecastRec) (c : Elem)
    (hc : cs[j]? = some c) :
    weatherAt cs 0 j r =
      setKey r "weather_conditions" (.str ((attr? c "weather-summary").getD "No description")) := by
  rw [weatherAt, if_neg (by omega)]
  have hj : j - 0 = j := by omega
  rw [hj, hc]

theorem numCellFn_error (key units s : String) (e : PyExn)
    (h : numCellFn key units s = .error e) : e = .valueError ∧ pyFloat? s = none := by
  unfold numCellFn at h
  cases hp : pyFloat? s with
  | none =>
    rw [hp] at h
    injection h with h
    exact ⟨h.symm, rfl⟩
  | some f =>
    rw [hp] at h
    exact absurd h (by simp)

theorem numCellFn_ok_of_some (key units s : String) (f : PyFloat)
    (h : pyFloat? s = some f) :
    numCellFn key units s = .ok (fun r => setKey r key (vuObj f units)) := by
  unfold numCellFn
  rw [h]

theorem map_eq_of_pointwise {α : Type} (l1 l2 : List ForecastRec)
    (f : ForecastRec → α)
    (hpt : ∀ j : Nat, (l1[j]?).map f = (l2[j]?).map f) :
    l1.map f = l2.map f := by
  apply List.ext_getElem?
  intro j
  rw [List.getElem?_map, List.getElem?_map]
  exact hpt j

/-- C5: text that is not well-formed XML yields the pipeline's sole hard
failure (the uncaught `ET.ParseError` from the constructor), never a partial
record sequence, and no alignment work happens on it; on every well-formed
document the pipeline returns a record list and never an error. -/
theorem c5_malformed_sole_failure :
    runPipeline .malformed = .error .parseError ∧
    ∀ root : Elem, runPipeline (.wellFormed root) = .ok (parse_hourly_forecast root) :=
  ⟨rfl, fun _ => rfl⟩

/-- C9: truncation is a pure prefix slice: `forecasts[:hours]` equals
`List.take`; requesting `K ≤ L` records returns exactly the first `K`
unchanged, and requesting `K > L` returns all `L`. -/
theorem c9_truncation_slice (fc : List ForecastRec) (K : Nat) :
    limitForecasts fc K = fc.take K ∧
    (K ≤ fc.length → (limitForecasts fc K).length = K ∧
      ∀ j : Nat, j < K → (limitForecasts fc K)[j]? = fc[j]?) ∧
    (fc.length < K → limitForecasts fc K = fc) := by
  have heq : limitForecasts fc K = fc.take K := by
    unfold limitForecasts
    by_cases h : fc.isEmpty
    · have : fc = [] := by
        cases fc with
        | nil => rfl
        | cons a b => exact absurd h (by simp)
      subst this
      simp
    · rw [if_neg h]
  refine ⟨heq, fun hK => ⟨?_, fun j hj => ?_⟩, fun hK => ?_⟩
  · rw [heq, List.length_take]
    omega
  · rw [heq, List.getElem?_take, if_pos hj]
  · rw [heq, List.take_of_length_le (by omega)]

/-- Witness for C9 at concrete inputs: a two-record list truncated to one,
and a one-record list truncated with a larger request. -/
theorem c9_truncation_slice_witness :
    limitForecasts [goodRec, goodRec] 1 = [goodRec, goodRec].take 1 ∧
    (limitForecasts [goodRec, goodRec] 1).length = 1 ∧
    limitForecasts [goodRec] 3 = [goodRec] :=
  ⟨(c9_truncation_slice [goodRec, goodRec] 1).1,
   ((c9_truncation_slice [goodRec, goodRec] 1).2.1 (by decide)).1,
   (c9_truncation_slice [goodRec] 3).2.2 (by decide)⟩

/-- C3 counterexample: in `c3doc` the first `time-layout` with more than 24
timestamps is `c3L1` (which has no `layout-key` child), but the parser
selects `c3L2` and records `c3L2`'s key and timestamps, so the claim's
description of the selection rule is false on this document. -/
theorem c3_counterexample :
    claimSelectedLayout c3doc = some c3L1 ∧
    (findallChild c3L1 "start-valid-time").map Elem.text ≠
      (findallChild c3L2 "start-valid-time").map Elem.text ∧
    hourlySelection c3doc =
      some ((findallChild c3L2 "start-valid-time").map Elem.text, some "k2") ∧
    (parse_hourly_forecast c3doc).head? =
      some [("valid_time", JVal.str "2026-02-02T07:00:00"),
            ("datetime_readable", JVal.str "2026-02-02 07:00:00 AM")] := by
  refine ⟨by decide, by decide, by decide, by decide⟩

/-- C3 amended: the selection picks the first `time-layout` in document order
that has a `layout-key` child and more than 24 timestamps, recording that
layout's key text and timestamp texts; if no such layout exists, or the
selected layout's key text is missing or empty, the parser returns an empty
sequence as a successful outcome. -/
theorem c3_amended_selection (root : Elem) :
    ((findallDesc root "time-layout").find? layoutEligible = none →
      hourlySelection root = none ∧ parse_hourly_forecast root = []) ∧
    (∀ (L lk : Elem), (findallDesc root "time-layout").find? layoutEligible = some L →
      findChild L "layout-key" = some lk →
      hourlySelection root = some ((findallChild L "start-valid-time").map Elem.text, lk.text)) ∧
    (∀ times : List (Option String), hourlySelection root = some (times, none) →
      parse_hourly_forecast root = []) ∧
    (∀ times : List (Option String), hourlySelection root = some (times, some "") →
      parse_hourly_forecast root = []) := by
  refine ⟨?_, ?_, ?_, ?_⟩
  · intro hf
    have hsel : hourlySelection root = none := by
      unfold hourlySelection
      rw [findHourly_eq, hf]
    refine ⟨hsel, parse_eq_of_core root [] ?_⟩
    rw [parseCore, hsel]
  · intro L lk hf hlk
    unfold hourlySelection
    rw [findHourly_eq, hf]
    show some ((findallChild L "start-valid-time").map Elem.text,
      (findChild L "layout-key").bind Elem.text) = _
    rw [hlk]
    rfl
  · intro times hsel
    apply parse_eq_of_core
    rw [parseCore, hsel]
    show (if times.isEmpty then Except.ok [] else Except.ok []) = Except.ok []
    by_cases h : times.isEmpty
    · rw [if_pos h]
    · rw [if_neg h]
  · intro times hsel
    apply parse_eq_of_core
    rw [parseCore, hsel]
    show (if times.isEmpty then Except.ok []
      else if ("" : String) = "" then Except.ok [] else parseCoreWith root times "") =
      Except.ok []
    by_cases h : times.isEmpty
    · rw [if_pos h]
    · rw [if_neg h, if_pos rfl]

/-- Witness for the amended C3 at concrete documents: a document with no
time layouts, the two-layout counterexample document, and a document whose
selected layout has an empty key text. -/
theorem c3_amended_selection_witness :
    (hourlySelection (Elem.mk "dwml" [] none []) = none ∧
      parse_hourly_forecast (Elem.mk "dwml" [] none []) = []) ∧
    hourlySelection c3doc =
      some ((findallChild c3L2 "start-valid-time").map Elem.text, some "k2") ∧
    parse_hourly_forecast docEmptyKey = [] := by
  refine ⟨(c3_amended_selection (Elem.mk "dwml" [] none [])).1 (by decide), ?_, ?_⟩
  · exact (c3_amended_selection c3doc).2.1 c3L2 (Elem.mk "layout-key" [] (some "k2") [])
      (by decide) (by decide)
  · exact (c3_amended_selection docEmptyKey).2.2.2 k1times (by decide)

/-- C2 counterexample: `c2doc`'s hourly layout has 25 timestamps, 24 of them
individually parseable strings and one an empty element (text `None`); the
claim requires 24 records, but `datetime.fromisoformat(None)` raises
`TypeError`, only `ValueError` is caught per-timestamp, and the outer
handler turns the whole parse into an empty list. -/
theorem c2_counterexample :
    hourlySelection c2doc = some (c2times, some "k1") ∧
    c2times.countP (fun t? => (t?.bind fromisoformat?).isSome) = 24 ∧
    parseCore c2doc = .error .typeError ∧
    parse_hourly_forecast c2doc = [] := by
  refine ⟨by decide, by decide, by decide, by decide⟩

/-- C2 amended: when the selected hourly layout's timestamps produce no
internal exception (every cell has text and no matching numeric cell fails
conversion, i.e. the core returns a list), the returned sequence has exactly
one record per individually parseable timestamp string, in layout order. -/
theorem c2_amended_record_count (root : Elem) (times : List (Option String)) (key : String)
    (l : List ForecastRec)
    (hsel : hourlySelection root = some (times, some key)) (hkey : key ≠ "")
    (hok : parseCore root = .ok l) :
    parse_hourly_forecast root = l ∧
    l.length = times.countP (fun t? => (t?.bind fromisoformat?).isSome) ∧
    l.map (fun r => getKey r "valid_time") =
      (times.filterMap (fun t? => t?.bind fromisoformat?)).map
        (fun dt => some (JVal.str (pyIsoformat dt))) := by
  obtain ⟨sk, hsk, hlen, hpt⟩ :=
    parseCore_ok_pres root times key l "valid_time" protectedKey_valid hsel hkey hok
  obtain ⟨hcount, hvmap, _, _⟩ := buildSkeleton_spec times sk hsk
  refine ⟨parse_eq_of_core root l hok, ?_, ?_⟩
  · rw [hlen, hcount]
  · rw [← hvmap]
    exact map_eq_of_pointwise l sk _ hpt

/-- Witness for the amended C2: a 25-timestamp document with no parameter
series parses to 25 records whose `valid_time` strings re-render the parsed
timestamps in order. -/
theorem c2_amended_record_count_witness :
    parse_hourly_forecast (docWith []) = List.replicate 25 goodRec ∧
    (List.replicate 25 goodRec : List ForecastRec).length =
      k1times.countP (fun t? => (t?.bind fromisoformat?).isSome) :=
  ⟨(c2_amended_record_count (docWith []) k1times "k1" (List.replicate 25 goodRec)
      (by decide) (by decide) (by decide)).1,
   (c2_amended_record_count (docWith []) k1times "k1" (List.replicate 25 goodRec)
      (by decide) (by decide) (by decide)).2.1⟩

/-- C10: every record of a non-empty parse result carries `valid_time` (the
isoformat re-rendering of its parsed timestamp) and `datetime_readable` (its
12-hour strftime rendering), exactly as set at skeleton construction; no
merge stage removes or overwrites them, and the timestamp comes from the
selected layout. -/
theorem c10_record_time_keys (root : Elem) (r : ForecastRec)
    (hr : r ∈ parse_hourly_forecast root) :
    ∃ (s : String) (dt : PyDatetime) (times : List (Option String))
      (key? : Option String),
      hourlySelection root = some (times, key?) ∧ some s ∈ times ∧
      fromisoformat? s = some dt ∧
      getKey r "valid_time" = some (JVal.str (pyIsoformat dt)) ∧
      getKey r "datetime_readable" = some (JVal.str (pyStrftime12 dt)) := by
  cases hc : parseCore root with
  | error e =>
    rw [parse_empty_of_core_error root e hc] at hr
    exact absurd hr (by simp)
  | ok l =>
    rw [parse_eq_of_core root l hc] at hr
    rw [parseCore] at hc
    cases hsel : hourlySelection root with
    | none =>
      rw [hsel] at hc
      injection hc with hc
      subst hc
      exact absurd hr (by simp)
    | some p =>
      obtain ⟨times, key?⟩ := p
      rw [hsel] at hc
      replace hc : (if times.isEmpty then Except.ok []
          else
            match key? with
            | none => Except.ok []
            | some key => if key = "" then Except.ok [] else parseCoreWith root times key) =
          Except.ok l := hc
      by_cases hemp : times.isEmpty
      · rw [if_pos hemp] at hc
        injection hc with hc
        subst hc
        exact absurd hr (by simp)
      · rw [if_neg hemp] at hc
        cases key? with
        | none =>
          injection hc with hc
          subst hc
          exact absurd hr (by simp)
        | some key =>
          replace hc : (if key = "" then Except.ok []
              else parseCoreWith root times key) = Except.ok l := hc
          by_cases hkey : key = ""
          · rw [if_pos hkey] at hc
            injection hc with hc
            subst hc
            exact absurd hr (by simp)
          · rw [if_neg hkey] at hc
            have hcore : parseCore root = .ok l := by
              rw [parseCore, hsel]
              replace goal : (if times.isEmpty then Except.ok []
                  else if key = "" then Except.ok []
                  else parseCoreWith root times key) = Except.ok l := by
                rw [if_neg hemp, if_neg hkey]
                exact hc
              exact goal
            obtain ⟨sk1, hsk1, hlen1, hpt1⟩ := parseCore_ok_pres root times key l
              "valid_time" protectedKey_valid hsel hkey hcore
            obtain ⟨sk2, hsk2, _, hpt2⟩ := parseCore_ok_pres root times key l
              "datetime_readable" protectedKey_readable hsel hkey hcore
            have hsk12 : sk2 = sk1 := by
              rw [hsk1] at hsk2
              injection hsk2 with hsk2
              exact hsk2.symm
            subst hsk12
            obtain ⟨j, hj⟩ := List.getElem?_of_mem hr
            have h1 := hpt1 j
            have h2 := hpt2 j
            rw [hj] at h1 h2
            cases hskj : sk2[j]? with
            | none =>
              rw [hskj] at h1
              exact absurd h1 (by simp)
            | some rsk =>
              rw [hskj] at h1 h2
              simp only [Option.map_some'] at h1 h2
              injection h1 with h1
              injection h2 with h2
              have hmem : rsk ∈ sk2 := List.getElem?_mem hskj
              obtain ⟨_, _, _, hall⟩ := buildSkeleton_spec times sk2 hsk1
              obtain ⟨s, dt, hsin, hfd, hv, hd⟩ := hall rsk hmem
              exact ⟨s, dt, times, some key, rfl, hsin, hfd, h1.trans hv, h2.trans hd⟩

/-- Witness for C10: the first record of a concrete 25-hour document. -/
theorem c10_record_time_keys_witness :
    ∃ (s : String) (dt : PyDatetime) (times : List (Option String))
      (key? : Option String),
      hourlySelection (docWith []) = some (times, key?) ∧ some s ∈ times ∧
      fromisoformat? s = some dt ∧
      getKey goodRec "valid_time" = some (JVal.str (pyIsoformat dt)) ∧
      getKey goodRec "datetime_readable" = some (JVal.str (pyStrftime12 dt)) :=
  c10_record_time_keys (docWith []) goodRec (by decide)

/-- C6: a parameter series whose declared `time-layout` differs from the
selected hourly key contributes nothing: the temperature loop skips any
non-matching candidate outright, and the single-element lookups can only
ever select an element whose `time-layout` attribute equals the key (so a
mismatched series is never merged, wholly or partially); when no matching
humidity element exists the records pass through untouched. -/
theorem c6_mismatched_series_ignored :
    (∀ (key : String) (t : Elem) (ts : List Elem) (fc : List ForecastRec),
      attr? t "time-layout" ≠ some key →
      parseTemperatureGo key (t :: ts) fc = parseTemperatureGo key ts fc) ∧
    (∀ (params : Elem) (tag a key : String) (h : Elem),
      findDescAttr params tag a key = some h → attr? h a = some key) ∧
    (∀ (params : Elem) (key : String) (fc : List ForecastRec),
      findDescAttr params "humidity" "time-layout" key = none →
      parseHumidityData params key fc = .ok fc) := by
  refine ⟨?_, ?_, ?_⟩
  · intro key t ts fc hm
    rw [parseTemperatureGo, if_neg hm]
  · intro params tag a key h hf
    have hp := List.find?_some hf
    rw [Bool.and_eq_true] at hp
    have := hp.2
    rwa [beq_iff_eq] at this
  · intro params key fc hf
    unfold parseHumidityData
    rw [hf]

/-- Witness for C6: a maximum-temperature series referencing layout `other`
is skipped when merging against key `k1`, a concrete humidity lookup only
returns the matching element, and a document without a humidity series
leaves the records unchanged. -/
theorem c6_mismatched_series_ignored_witness :
    parseTemperatureGo "k1" [c6temp] [goodRec] = parseTemperatureGo "k1" [] [goodRec] ∧
    attr? c4whum "time-layout" = some "k1" ∧
    parseHumidityData (Elem.mk "parameters" [] none [c6temp]) "k1" [goodRec] =
      .ok [goodRec] :=
  ⟨c6_mismatched_series_ignored.1 "k1" c6temp [] [goodRec] (by decide),
   c6_mismatched_series_ignored.2.1 c4wparams "humidity" "time-layout" "k1" c4whum (by decide),
   c6_mismatched_series_ignored.2.2 (Elem.mk "parameters" [] none [c6temp]) "k1" [goodRec]
     (by decide)⟩

/-- C1 counterexample: in `c1doc` the matching hourly temperature series has
one non-empty cell `NA` that fails `float()`; the claim requires the full
25-record sequence with only that cell's key omitted, but the `ValueError`
escapes the merging loop, is caught by the outer `except`, and the caller
receives an empty list instead. -/
theorem c1_counterexample :
    pyFloat? "NA" = none ∧
    hourlySelection c1doc = some (k1times, some "k1") ∧
    buildSkeleton k1times = .ok (List.replicate 25 goodRec) ∧
    parseCore c1doc = .error .valueError ∧
    parse_hourly_forecast c1doc = [] := by
  refine ⟨by decide, by decide, by decide, by decide, by decide⟩

/-- C1 amended: an empty value cell is skipped with only its own key omitted
(the record at that position is untouched and the rest of the series still
merges), but a non-empty cell that fails numeric conversion at an in-range
position makes the whole merge raise `ValueError`, and any exception inside
the core makes the caller receive an empty list (no exception propagates). -/
theorem c1_amended_cell_failure :
    (∀ (key units : String) (vs : List Elem) (fc : List ForecastRec) (n : Nat) (v : Elem)
      (s : String), vs[n]? = some v → n < fc.length → v.text = some s → s ≠ "" →
      pyFloat? s = none → mergeNum key units vs fc = .error .valueError) ∧
    (∀ (key units : String) (vs : List Elem) (fc l : List ForecastRec) (j : Nat) (v : Elem),
      mergeNum key units vs fc = .ok l → vs[j]? = some v →
      (v.text = none ∨ v.text = some "") → l[j]? = fc[j]?) ∧
    (∀ (root : Elem) (e : PyExn), parseCore root = .error e →
      parse_hourly_forecast root = []) := by
  refine ⟨?_, ?_, ?_⟩
  · intro key units vs fc n v s hn hrange ht hs hp
    have hcf : numCellFn key units s = .error .valueError := by
      unfold numCellFn
      rw [hp]
    obtain ⟨e2, he2⟩ := mergeCells_error_of_bad (numCellFn key units) vs 0 fc n v s
      .valueError hn (by omega) ht hs hcf
    obtain ⟨n2, v2, s2, _, _, _, _, hcf2⟩ :=
      mergeCells_error_bad (numCellFn key units) vs 0 fc e2 he2
    obtain ⟨he, _⟩ := numCellFn_error key units s2 e2 hcf2
    rw [he] at he2
    exact he2
  · intro key units vs fc l j v hok hv ht
    obtain ⟨_, hspec⟩ := mergeCells_ok_spec (numCellFn key units) vs 0 fc l hok
    rw [hspec j]
    cases hj : fc[j]? with
    | none => rfl
    | some r => simp [mergedAt_skipcell (numCellFn key units) vs j r v hv ht]
  · exact parse_empty_of_core_error

/-- Witness for the amended C1: a bad cell `NA` aborts a one-record merge
with `ValueError`; an empty cell leaves its record untouched while the merge
succeeds; the counterexample document's internal error yields an empty
parse result. -/
theorem c1_amended_cell_failure_witness :
    mergeNum "humidity" "percent" [vEl "NA"] [goodRec] = .error .valueError ∧
    (mergeNum "humidity" "percent" [vEl ""] [goodRec] = .ok [goodRec] ∧
      ([goodRec] : List ForecastRec)[0]? = ([goodRec] : List ForecastRec)[0]?) ∧
    parse_hourly_forecast c1doc = [] := by
  refine ⟨?_, ⟨by decide, ?_⟩, ?_⟩
  · exact c1_amended_cell_failure.1 "humidity" "percent" [vEl "NA"] [goodRec] 0 (vEl "NA")
      "NA" (by decide) (by decide) (by decide) (by decide) (by decide)
  · exact c1_amended_cell_failure.2.1 "humidity" "percent" [vEl ""] [goodRec] [goodRec] 0
      (vEl "") (by decide) (by decide) (Or.inr (by decide))
  · exact c1_amended_cell_failure.2.2 c1doc .valueError (by decide)

/-- C4 counterexample: in `c4doc` the matching humidity series has M = 2
values against a skeleton of N = 25 records, cell 0 numeric-valid and cell 1
non-empty but numeric-invalid; the claim requires record 0 to carry
humidity 55 and records 2..24 to merely omit the key, but the whole parse
returns the empty list, so no record carries anything. -/
theorem c4_counterexample :
    pyFloat? "55" = some (.finite ⟨55, 0⟩) ∧
    pyFloat? "xx" = none ∧
    hourlySelection c4doc = some (k1times, some "k1") ∧
    buildSkeleton k1times = .ok (List.replicate 25 goodRec) ∧
    parseCore c4doc = .error .valueError ∧
    parse_hourly_forecast c4doc = [] := by
  refine ⟨by decide, by decide, by decide, by decide, by decide, by decide⟩

/-- C4 amended: provided every cell of the matching humidity series is empty
or numeric-valid, the positional merge succeeds: the result has the
skeleton's length, records at positions past the series' end are untouched
(so they omit the key), and a record whose cell is non-empty and
numeric-valid carries `{'value': ..., 'units': ...}` under `humidity` with
the declared unit or the default `percent`; a numeric-invalid non-empty
cell would instead abort the whole parse. -/
theorem c4_amended_positional_merge (params : Elem) (key : String) (fc : List ForecastRec)
    (h : Elem) (hfind : findDescAttr params "humidity" "time-layout" key = some h)
    (hcells : ∀ v ∈ findallChild h "value", cellOk v = true) :
    ∃ l, parseHumidityData params key fc = .ok l ∧ l.length = fc.length ∧
      (∀ j : Nat, (findallChild h "value").length ≤ j → l[j]? = fc[j]?) ∧
      (∀ (j : Nat) (v : Elem) (s : String) (f : PyFloat),
        (findallChild h "value")[j]? = some v → v.text = some s → s ≠ "" →
        pyFloat? s = some f →
        l[j]? = (fc[j]?).map (fun r =>
          setKey r "humidity" (vuObj f ((attr? h "units").getD "percent")))) := by
  have hstage : parseHumidityData params key fc =
      mergeNum "humidity" ((attr? h "units").getD "percent") (findallChild h "value") fc := by
    unfold parseHumidityData
    rw [hfind]
  cases hres : mergeNum "humidity" ((attr? h "units").getD "percent")
      (findallChild h "value") fc with
  | error e =>
    exfalso
    obtain ⟨n, v, s, hn, ht, hs, _, hcf⟩ :=
      mergeCells_error_bad _ (findallChild h "value") 0 fc e hres
    obtain ⟨_, hp⟩ := numCellFn_error _ _ s e hcf
    have hv : cellOk v = true := hcells v (List.getElem?_mem hn)
    unfold cellOk at hv
    rw [ht] at hv
    replace hv : (s = "" || (pyFloat? s).isSome) = true := hv
    rw [Bool.or_eq_true] at hv
    rcases hv with hv | hv
    · exact hs (by simpa using hv)
    · rw [hp] at hv
      exact absurd hv (by simp)
  | ok l =>
    obtain ⟨hlen, hspec⟩ := mergeCells_ok_spec _ (findallChild h "value") 0 fc l hres
    refine ⟨l, by rw [hstage, hres], hlen, fun j hj => ?_, fun j v s f hv ht hs hp => ?_⟩
    · rw [hspec j]
      cases hfc : fc[j]? with
      | none => rfl
      | some r =>
        simp [mergedAt_oob _ (findallChild h "value") j r (List.getElem?_eq_none hj)]
    · rw [hspec j]
      cases hfc : fc[j]? with
      | none => rfl
      | some r =>
        simp [mergedAt_fill _ (findallChild h "value") j r v s _ hv ht hs
          (numCellFn_ok_of_some "humidity" ((attr? h "units").getD "percent") s f hp)]

/-- Witness for the amended C4: a one-cell series `55` merged into a
two-record skeleton fills record 0 with `{'value': 55, 'units': 'percent'}`
and leaves record 1 without the key. -/
theorem c4_amended_positional_merge_witness :
    ∃ l, parseHumidityData c4wparams "k1" [goodRec, goodRec] = .ok l ∧
      l.length = ([goodRec, goodRec] : List ForecastRec).length ∧
      l[1]? = ([goodRec, goodRec] : List ForecastRec)[1]? ∧
      l[0]? = some (setKey goodRec "humidity" (vuObj (.finite ⟨55, 0⟩) "percent")) := by
  obtain ⟨l, hok, hlen, hoob, hfill⟩ :=
    c4_amended_positional_merge c4wparams "k1" [goodRec, goodRec] c4whum
      (by decide) (by decide)
  refine ⟨l, hok, hlen, hoob 1 (by decide), ?_⟩
  have := hfill 0 (vEl "55") "55" (.finite ⟨55, 0⟩) (by decide) (by decide) (by decide)
    (by decide)
  rw [this]
  decide

/-- C7 counterexample: in `c7doc` the matching weather series' first
`weather-conditions` element has no `weather-summary` attribute; the claim
says a missing source datum is represented only by key absence, never a
placeholder, yet the first record carries
`weather_conditions = "No description"`. -/
theorem c7_counterexample :
    attr? (Elem.mk "weather-conditions" [] none []) "weather-summary" = none ∧
    (parse_hourly_forecast c7doc).head? =
      some (goodRec ++ [("weather_conditions", JVal.str "No description")]) ∧
    getKey (goodRec ++ [("weather_conditions", JVal.str "No description")])
      "weather_conditions" = some (JVal.str "No description") := by
  refine ⟨by decide, by decide, by decide⟩

/-- C7 amended: numeric parameters never receive a default (an empty or
missing cell leaves its record untouched, so the key stays absent), but the
weather-conditions summary is the exception: the i-th `weather-conditions`
element always sets the key on record i, substituting the placeholder
`No description` exactly when the `weather-summary` attribute is absent. -/
theorem c7_amended_no_numeric_defaults :
    (∀ (key units : String) (vs : List Elem) (fc l : List ForecastRec) (j : Nat) (v : Elem),
      mergeNum key units vs fc = .ok l → vs[j]? = some v →
      (v.text = none ∨ v.text = some "") → l[j]? = fc[j]?) ∧
    (∀ (cs : List Elem) (fc : List ForecastRec) (j : Nat) (c : Elem),
      cs[j]? = some c →
      (parseWeatherGo 0 cs fc)[j]? = (fc[j]?).map (fun r =>
        setKey r "weather_conditions"
          (.str ((attr? c "weather-summary").getD "No description")))) ∧
    (∀ c : Elem, attr? c "weather-summary" = none →
      (attr? c "weather-summary").getD "No description" = "No description") := by
  refine ⟨?_, ?_, ?_⟩
  · intro key units vs fc l j v hok hv ht
    obtain ⟨_, hspec⟩ := mergeCells_ok_spec (numCellFn key units) vs 0 fc l hok
    rw [hspec j]
    cases hj : fc[j]? with
    | none => rfl
    | some r => simp [mergedAt_skipcell (numCellFn key units) vs j r v hv ht]
  · intro cs fc j c hc
    obtain ⟨_, hspec⟩ := parseWeatherGo_spec cs 0 fc
    rw [hspec j]
    cases hj : fc[j]? with
    | none => rfl
    | some r => simp [weatherAt_fill cs j r c hc]
  · intro c hc
    rw [hc]
    rfl

/-- Witness for the amended C7: an empty humidity cell adds nothing to its
record; a summary-less `weather-conditions` element puts the placeholder on
record 0 of a one-record list. -/
theorem c7_amended_no_numeric_defaults_witness :
    (mergeNum "humidity" "percent" [vEl ""] [goodRec] = .ok [goodRec] ∧
      ([goodRec] : List ForecastRec)[0]? = ([goodRec] : List ForecastRec)[0]?) ∧
    (parseWeatherGo 0 [Elem.mk "weather-conditions" [] none []] [goodRec])[0]? =
      (([goodRec] : List ForecastRec)[0]?).map (fun r =>
        setKey r "weather_conditions"
          (.str ((attr? (Elem.mk "weather-conditions" [] none [])
            "weather-summary").getD "No description"))) ∧
    (attr? (Elem.mk "weather-conditions" [] none []) "weather-summary").getD
      "No description" = "No description" := by
  refine ⟨⟨by decide, ?_⟩, ?_, ?_⟩
  · exact c7_amended_no_numeric_defaults.1 "humidity" "percent" [vEl ""] [goodRec] [goodRec]
      0 (vEl "") (by decide) (by decide) (Or.inr (by decide))
  · exact c7_amended_no_numeric_defaults.2.1 [Elem.mk "weather-conditions" [] none []]
      [goodRec] 0 (Elem.mk "weather-conditions" [] none []) (by decide)
  · exact c7_amended_no_numeric_defaults.2.2 (Elem.mk "weather-conditions" [] none [])
      (by decide)

/-- C8 counterexample: the direction cell `12.5` is numeric — `float()`
accepts it — but `isdigit()` is false, so the record stores the string
`"12.5"`, contradicting the claim that a numeric source value is kept
numeric. -/
theorem c8_counterexample :
    (pyFloat? "12.5").isSome = true ∧
    pyIsdigit "12.5" = false ∧
    (parse_hourly_forecast c8doc).head? = some (goodRec ++
      [("wind", JVal.obj [("direction", JVal.obj [("value", JVal.str "12.5"),
        ("units", JVal.str "degrees")])])]) := by
  refine ⟨by decide, by decide, by decide⟩

/-- C8 amended: wind speed and direction both merge through `setWind`, which
writes only the single top-level `wind` key and updates one field of the
shared nested dict; a direction cell is stored as a number exactly when its
text is a pure digit string (in which case `float()` cannot fail) and is
otherwise kept verbatim as a string, never raising. -/
theorem c8_amended_wind_merge :
    (∀ units s : String, pyIsdigit s = true → ∃ f, pyFloat? s = some f ∧
      windDirCellFn units s = .ok (fun r => setWind r "direction"
        (.obj [("value", JVal.num f), ("units", JVal.str units)]))) ∧
    (∀ units s : String, pyIsdigit s = false → windDirCellFn units s =
      .ok (fun r => setWind r "direction"
        (.obj [("value", JVal.str s), ("units", JVal.str units)]))) ∧
    (∀ (r : ForecastRec) (field : String) (v : JVal) (k : String), k ≠ "wind" →
      getKey (setWind r field v) k = getKey r k) ∧
    (∀ (r : ForecastRec) (field : String) (v : JVal),
      getKey (setWind r field v) "wind" = some (.obj (setKey (windObjOf r) field v))) ∧
    (∀ (params : Elem) (key : String) (fc l : List ForecastRec) (k : String),
      parseWindData params key fc = .ok l → k ≠ "wind" →
      l.length = fc.length ∧
      ∀ j : Nat, (l[j]?).map (fun r => getKey r k) = (fc[j]?).map (fun r => getKey r k)) := by
  refine ⟨?_, ?_, ?_, ?_, ?_⟩
  · intro units s hd
    refine ⟨mkFin false s.data [] false 0, pyFloat?_digits hd, ?_⟩
    unfold windDirCellFn
    rw [if_pos hd, pyFloat?_digits hd]
  · intro units s hd
    unfold windDirCellFn
    rw [if_neg (by rw [hd]; exact Bool.false_ne_true)]
  · intro r field v k hk
    exact getKey_setWind_ne r field v k hk
  · intro r field v
    unfold setWind
    exact getKey_setKey_self r "wind" _
  · intro params key fc l k hok hk
    exact parseWindData_preserve params key k hk fc l hok

/-- Witness for the amended C8: digit and non-digit direction cells, the
untouched keys of a record after `setWind`, the shared nested value, and a
concrete wind merge preserving `valid_time`. -/
theorem c8_amended_wind_merge_witness :
    (∃ f, pyFloat? "340" = some f ∧ windDirCellFn "degrees" "340" =
      .ok (fun r => setWind r "direction"
        (.obj [("value", JVal.num f), ("units", JVal.str "degrees")]))) ∧
    windDirCellFn "degrees" "NW" = .ok (fun r => setWind r "direction"
      (.obj [("value", JVal.str "NW"), ("units", JVal.str "degrees")])) ∧
    getKey (setWind goodRec "speed" (vuObj (.finite ⟨10, 0⟩) "knots")) "valid_time" =
      getKey goodRec "valid_time" ∧
    getKey (setWind goodRec "speed" (vuObj (.finite ⟨10, 0⟩) "knots")) "wind" =
      some (.obj (setKey (windObjOf goodRec) "speed" (vuObj (.finite ⟨10, 0⟩) "knots"))) ∧
    (([goodRec] : List ForecastRec)[0]?).map (fun r => getKey r "valid_time") =
      (([goodRec] : List ForecastRec)[0]?).map (fun r => getKey r "valid_time") := by
  refine ⟨c8_amended_wind_merge.1 "degrees" "340" (by decide),
    c8_amended_wind_merge.2.1 "degrees" "NW" (by decide),
    c8_amended_wind_merge.2.2.1 goodRec "speed" _ "valid_time" (by decide),
    c8_amended_wind_merge.2.2.2.1 goodRec "speed" _, ?_⟩
  exact (c8_amended_wind_merge.2.2.2.2 c4wparams "k1" [goodRec] [goodRec] "valid_time"
    (by decide) (by decide)).2 0

/-- Witness for C5 at a concrete well-formed document. -/
theorem c5_malformed_sole_failure_witness :
    runPipeline .malformed = .error .parseError ∧
    runPipeline (.wellFormed c1doc) = .ok (parse_hourly_forecast c1doc) :=
  ⟨c5_malformed_sole_failure.1, c5_malformed_sole_failure.2 c1doc⟩
